import Mathlib

/-!
Shallow embedding of the zkgate program (Some1Uknow/shadow) and proofs about it.

The embedding translates the Rust sources under `programs/zkgate/src/`:
machine integers become `Nat` with explicit `% 2^64` / bound checks where the
code performs `as u64` casts or `checked_*` arithmetic on `u64`/`u128`;
fallible code returns `Except Err`; account bytes (`Pubkey`, `[u8; 32]`
roots/hashes, public-input buffers) become `List Nat` of byte values; the
external record store, SPL token transfers and the CPI verifier are inputs of
the embedded functions (they are external collaborators of the program).
-/

namespace ZkGate

/-- Error kinds of the program (`errors.rs`, `enum ErrorCode`), plus three
extra variants for non-`ErrorCode` errors Anchor-framework code raises and the
program propagates with `?`: `cpiFailure` for a failed external CPI (a token
transfer or a create-account call), and `accountDiscriminatorMismatch` /
`accountDidNotDeserialize` for the two failure modes of Anchor's
`try_deserialize` on a `#[account]` type (leading 8 bytes differ from the
account discriminator / the Borsh payload after them does not decode). -/
inductive Err where
  | slippageExceeded
  | invalidProof
  | mathOverflow
  | zeroAmount
  | insufficientLiquidity
  | invalidVerifier
  | invalidStateRoot
  | invalidShieldedAccount
  | nullifierAlreadySpent
  | cpiFailure
  | accountDiscriminatorMismatch
  | accountDidNotDeserialize
deriving DecidableEq, Repr

/-- One past the largest `u64` value. -/
def U64 : Nat := 2 ^ 64

/-- One past the largest `u128` value. -/
def U128 : Nat := 2 ^ 128

/-- `math.rs`: `calculate_fee` — `amount as u128 * 30 / 10000`, each step a
checked `u128` operation, result cast back `as u64`. -/
def calculate_fee (amount : Nat) : Except Err Nat :=
  let p := amount * 30
  if U128 ≤ p then .error .mathOverflow
  else .ok (p / 10000 % U64)

/-- `math.rs`: `get_amount_out` — the constant-product quote with a 0.3% fee.
Each `checked_mul`/`checked_add` on `u128` is modelled by an explicit
`U128 ≤ _` overflow test; `checked_div` only fails on a zero divisor; the
final `amount_out as u64` cast is the `% U64`. -/
def get_amount_out (amount_in reserve_in reserve_out : Nat) : Except Err Nat :=
  if amount_in = 0 then .error .zeroAmount
  else if reserve_in = 0 ∨ reserve_out = 0 then .error .insufficientLiquidity
  else
    let amount_in_with_fee := amount_in * 997
    if U128 ≤ amount_in_with_fee then .error .mathOverflow
    else
      let numerator := amount_in_with_fee * reserve_out
      if U128 ≤ numerator then .error .mathOverflow
      else
        let d0 := reserve_in * 1000
        if U128 ≤ d0 then .error .mathOverflow
        else
          let denominator := d0 + amount_in_with_fee
          if U128 ≤ denominator then .error .mathOverflow
          else if denominator = 0 then .error .mathOverflow
          else .ok (numerator / denominator % U64)

/-- The exact integer quote value from the spec's formula. -/
def quote_floor (amount_in reserve_in reserve_out : Nat) : Nat :=
  amount_in * 997 * reserve_out / (reserve_in * 1000 + amount_in * 997)

theorem quote_floor_le_reserve_out (a rin rout : Nat) (ha : 0 < a) :
    quote_floor a rin rout ≤ rout := by
  unfold quote_floor
  have h997 : 0 < a * 997 := by positivity
  calc a * 997 * rout / (rin * 1000 + a * 997)
      ≤ a * 997 * rout / (a * 997) :=
        Nat.div_le_div_left (Nat.le_add_left _ _) h997
    _ = rout := Nat.mul_div_cancel_left rout h997

/-- On `u64`-ranged inputs with positive amount and reserves, the only checked
operation that can overflow is `amount_in_with_fee * reserve_out`; when it does
not, the code returns exactly the spec's floor formula. -/
theorem get_amount_out_ok (a rin rout : Nat)
    (hau : a < U64) (hri : rin < U64) (hro : rout < U64)
    (ha : a ≠ 0) (hrin : rin ≠ 0) (hrout : rout ≠ 0)
    (hnum : a * 997 * rout < U128) :
    get_amount_out a rin rout = .ok (quote_floor a rin rout) := by
  have hfee : a * 997 < U128 := by
    calc a * 997 < U64 * 997 :=
          (Nat.mul_lt_mul_right (by norm_num)).mpr hau
      _ < U128 := by norm_num [U64, U128]
  have hd0 : rin * 1000 < U128 := by
    calc rin * 1000 < U64 * 1000 := (Nat.mul_lt_mul_right (by norm_num)).mpr hri
      _ < U128 := by norm_num [U64, U128]
  have hden : rin * 1000 + a * 997 < U128 := by
    have h1 : rin * 1000 ≤ (U64 - 1) * 1000 :=
      Nat.mul_le_mul_right 1000 (by omega)
    have h2 : a * 997 ≤ (U64 - 1) * 997 :=
      Nat.mul_le_mul_right 997 (by omega)
    have : (U64 - 1) * 1000 + (U64 - 1) * 997 < U128 := by norm_num [U64, U128]
    omega
  have hdenpos : rin * 1000 + a * 997 ≠ 0 := by positivity
  have hq : quote_floor a rin rout < U64 :=
    lt_of_le_of_lt (quote_floor_le_reserve_out a rin rout (Nat.pos_of_ne_zero ha)) hro
  unfold get_amount_out
  rw [if_neg ha, if_neg (by push_neg; exact ⟨hrin, hrout⟩)]
  simp only [not_le.mpr hfee, if_false, not_le.mpr hnum, not_le.mpr hd0,
    not_le.mpr hden, if_neg hdenpos]
  unfold quote_floor at hq ⊢
  rw [Nat.mod_eq_of_lt hq]

theorem get_amount_out_overflow (a rin rout : Nat)
    (hau : a < U64) (_hri : rin < U64)
    (ha : a ≠ 0) (hrin : rin ≠ 0) (hrout : rout ≠ 0)
    (hnum : U128 ≤ a * 997 * rout) :
    get_amount_out a rin rout = .error .mathOverflow := by
  have hfee : a * 997 < U128 := by
    calc a * 997 < U64 * 997 := (Nat.mul_lt_mul_right (by norm_num)).mpr hau
      _ < U128 := by norm_num [U64, U128]
  unfold get_amount_out
  rw [if_neg ha, if_neg (by push_neg; exact ⟨hrin, hrout⟩)]
  simp only [not_le.mpr hfee, if_false, hnum, if_true]

/-- Inverting a successful quote: the guard conditions must all have passed,
and the result is exactly the floor formula. -/
theorem get_amount_out_ok_inv (a rin rout q : Nat)
    (hau : a < U64) (hri : rin < U64) (hro : rout < U64)
    (h : get_amount_out a rin rout = .ok q) :
    a ≠ 0 ∧ rin ≠ 0 ∧ rout ≠ 0 ∧ a * 997 * rout < U128 ∧
      q = quote_floor a rin rout := by
  by_cases ha : a = 0
  · rw [ha] at h; simp [get_amount_out] at h
  by_cases hr : rin = 0 ∨ rout = 0
  · unfold get_amount_out at h
    rw [if_neg ha, if_pos hr] at h
    cases h
  push_neg at hr
  obtain ⟨hrin, hrout⟩ := hr
  by_cases hnum : a * 997 * rout < U128
  · rw [get_amount_out_ok a rin rout hau hri hro ha hrin hrout hnum] at h
    exact ⟨ha, hrin, hrout, hnum, (Except.ok.inj h).symm⟩
  · rw [get_amount_out_overflow a rin rout hau hri ha hrin hrout
      (le_of_not_lt hnum)] at h
    cases h

theorem get_amount_out_zero_amount_iff (a rin rout : Nat) :
    get_amount_out a rin rout = .error .zeroAmount ↔ a = 0 := by
  constructor
  · intro h
    by_contra ha
    unfold get_amount_out at h
    rw [if_neg ha] at h
    dsimp only at h
    split at h
    · simp at h
    · split at h
      · simp at h
      · split at h
        · simp at h
        · split at h
          · simp at h
          · split at h
            · simp at h
            · split at h
              · simp at h
              · simp at h
  · intro h
    subst h
    rfl

theorem get_amount_out_insufficient (a rin rout : Nat)
    (hr : rin = 0 ∨ rout = 0) (ha : a ≠ 0) :
    get_amount_out a rin rout = .error .insufficientLiquidity := by
  unfold get_amount_out
  rw [if_neg ha, if_pos hr]

/-- Claim C2, counterexample: at `amount_in = 2^63`, `reserve_in = 1`,
`reserve_out = 2^63` (all valid `u64` values, amount and reserves positive)
the code fails with `MathOverflow` because the 128-bit intermediate product
`amount_in * 997 * reserve_out` overflows, instead of returning the claimed
floor value. -/
theorem c2_quote_counterexample :
    get_amount_out (2 ^ 63) 1 (2 ^ 63) = .error .mathOverflow ∧
    get_amount_out (2 ^ 63) 1 (2 ^ 63) ≠
      .ok (2 ^ 63 * 997 * 2 ^ 63 / (1 * 1000 + 2 ^ 63 * 997)) := by
  constructor
  · rfl
  · intro h
    rw [show get_amount_out (2 ^ 63) 1 (2 ^ 63) = .error .mathOverflow from rfl] at h
    exact Except.noConfusion h

/-- Claim C2 (amended): for every `u64` triple, `quote` fails with
`ZeroAmount` iff `amount_in = 0`; fails with `InsufficientLiquidity` when
`amount_in > 0` and either reserve is zero; otherwise, when the 128-bit
intermediate `amount_in * 997 * reserve_out` does not overflow, it returns
`floor(amount_in * 997 * reserve_out / (reserve_in * 1000 + amount_in * 997))`,
and when that intermediate overflows `2^128` it fails with `MathOverflow`;
in particular `quote(1000, 10^10, 10^10) = 996`. -/
theorem c2_quote_spec :
    (∀ a rin rout : Nat, a < U64 → rin < U64 → rout < U64 →
      ((get_amount_out a rin rout = .error .zeroAmount ↔ a = 0) ∧
       ((rin = 0 ∨ rout = 0) → a ≠ 0 →
         get_amount_out a rin rout = .error .insufficientLiquidity) ∧
       (a ≠ 0 → rin ≠ 0 → rout ≠ 0 → a * 997 * rout < U128 →
         get_amount_out a rin rout =
           .ok (a * 997 * rout / (rin * 1000 + a * 997))) ∧
       (a ≠ 0 → rin ≠ 0 → rout ≠ 0 → U128 ≤ a * 997 * rout →
         get_amount_out a rin rout = .error .mathOverflow))) ∧
    get_amount_out 1000 10000000000 10000000000 = .ok 996 := by
  constructor
  · intro a rin rout hau hri hro
    refine ⟨get_amount_out_zero_amount_iff a rin rout,
      fun hr ha => get_amount_out_insufficient a rin rout hr ha,
      fun ha hrin hrout hnum =>
        get_amount_out_ok a rin rout hau hri hro ha hrin hrout hnum,
      fun ha hrin hrout hnum =>
        get_amount_out_overflow a rin rout hau hri ha hrin hrout hnum⟩
  · rfl

/-- Witness for `c2_quote_spec`: the quantified part applied at
`(1000, 10^10, 10^10)`, with every hypothesis discharged concretely. -/
theorem c2_quote_spec_witness :
    get_amount_out 1000 10000000000 10000000000 =
      .ok (1000 * 997 * 10000000000 / (10000000000 * 1000 + 1000 * 997)) :=
  ((c2_quote_spec.1 1000 10000000000 10000000000
    (by norm_num [U64]) (by norm_num [U64]) (by norm_num [U64])).2.2.1
    (by norm_num) (by norm_num) (by norm_num) (by norm_num [U128]))

/-- The quotient times the full denominator is bounded by the numerator,
specialised to the quote formula. -/
theorem quote_floor_mul_den_le (a rin rout : Nat) :
    quote_floor a rin rout * (rin * 1000 + a * 997) ≤ a * 997 * rout := by
  unfold quote_floor
  exact Nat.div_mul_le_self _ _

/-- Core fee-capture inequality: `q * (rin + a) ≤ a * rout` for the exact
quote value `q`. -/
theorem quote_floor_mul_le (a rin rout : Nat) :
    quote_floor a rin rout * (rin + a) ≤ a * rout := by
  set q := quote_floor a rin rout with hq
  have h1 : q * (rin * 1000 + a * 997) ≤ a * 997 * rout :=
    quote_floor_mul_den_le a rin rout
  have h2 : 997 * (q * (rin + a)) ≤ 997 * (a * rout) := by
    calc 997 * (q * (rin + a)) = q * (rin * 997 + a * 997) := by ring
      _ ≤ q * (rin * 1000 + a * 997) := by
          have : rin * 997 ≤ rin * 1000 := Nat.mul_le_mul_left rin (by norm_num)
          exact Nat.mul_le_mul_left q (by omega)
      _ ≤ a * 997 * rout := h1
      _ = 997 * (a * rout) := by ring
  exact Nat.le_of_mul_le_mul_left h2 (by norm_num)

/-- Strict version used for the fee claim: `q * rin < a * rout` when the
amount and both reserves are positive. -/
theorem quote_floor_mul_lt (a rin rout : Nat)
    (ha : 0 < a) (hrout : 0 < rout) :
    quote_floor a rin rout * rin < a * rout := by
  set q := quote_floor a rin rout with hq
  have h1 : q * (rin * 1000 + a * 997) ≤ a * 997 * rout :=
    quote_floor_mul_den_le a rin rout
  have hpos : 0 < a * rout := Nat.mul_pos ha hrout
  by_contra hcon
  push_neg at hcon
  have h2 : 1000 * (a * rout) ≤ 1000 * (q * rin) :=
    Nat.mul_le_mul_left 1000 hcon
  have h3 : 1000 * (q * rin) ≤ q * (rin * 1000 + a * 997) := by
    calc 1000 * (q * rin) = q * (rin * 1000) := by ring
      _ ≤ q * (rin * 1000 + a * 997) := Nat.mul_le_mul_left q (Nat.le_add_right _ _)
  have h4 : a * 997 * rout = 997 * (a * rout) := by ring
  omega

/-- `state.rs`: the public AMM `Pool` account. -/
structure Pool where
  token_a_mint : List Nat
  token_b_mint : List Nat
  token_a_reserve : Nat
  token_b_reserve : Nat
  k : Nat
  bump : Nat
  authority : List Nat
  total_fees_a : Nat
  total_fees_b : Nat
deriving DecidableEq, Repr

/-- `swap.rs`: `SwapDirection`. -/
inductive SwapDirection where
  | aToB
  | bToA
deriving DecidableEq, Repr

/-- `swap.rs`: `execute_swap`, with the two SPL-token transfer CPIs modelled
by the booleans `user_transfer_ok` (user → reserve-in) and `pool_transfer_ok`
(reserve-out → user); the `checked_add`/`checked_sub` on the `u64` reserve
and fee fields are explicit `U64` bound checks. Returns the updated pool and
`amount_out`. -/
def execute_swap (pool : Pool) (user_transfer_ok pool_transfer_ok : Bool)
    (amount_in min_out : Nat) (direction : SwapDirection) :
    Except Err (Pool × Nat) :=
  let rr : Nat × Nat :=
    match direction with
    | .aToB => (pool.token_a_reserve, pool.token_b_reserve)
    | .bToA => (pool.token_b_reserve, pool.token_a_reserve)
  match get_amount_out amount_in rr.1 rr.2 with
  | .error e => .error e
  | .ok amount_out =>
    if amount_out < min_out then .error .slippageExceeded
    else if ¬ user_transfer_ok then .error .cpiFailure
    else if ¬ pool_transfer_ok then .error .cpiFailure
    else
      match calculate_fee amount_in with
      | .error e => .error e
      | .ok fee =>
        match direction with
        | .aToB =>
          if U64 ≤ pool.token_a_reserve + amount_in then .error .mathOverflow
          else if pool.token_b_reserve < amount_out then .error .mathOverflow
          else if U64 ≤ pool.total_fees_a + fee then .error .mathOverflow
          else .ok ({ pool with
              token_a_reserve := pool.token_a_reserve + amount_in,
              token_b_reserve := pool.token_b_reserve - amount_out,
              total_fees_a := pool.total_fees_a + fee }, amount_out)
        | .bToA =>
          if U64 ≤ pool.token_b_reserve + amount_in then .error .mathOverflow
          else if pool.token_a_reserve < amount_out then .error .mathOverflow
          else if U64 ≤ pool.total_fees_b + fee then .error .mathOverflow
          else .ok ({ pool with
              token_b_reserve := pool.token_b_reserve + amount_in,
              token_a_reserve := pool.token_a_reserve - amount_out,
              total_fees_b := pool.total_fees_b + fee }, amount_out)

/-- Reserve-product inequality for a successful quote, on the raw in/out
reserve pair. -/
theorem quote_k_nondecreasing (a rin rout q : Nat)
    (hau : a < U64) (hri : rin < U64) (hro : rout < U64)
    (h : get_amount_out a rin rout = .ok q) :
    rin * rout ≤ (rin + a) * (rout - q) := by
  obtain ⟨ha, hrin, hrout, hnum, hq⟩ := get_amount_out_ok_inv a rin rout q hau hri hro h
  have hqr : q ≤ rout := hq ▸ quote_floor_le_reserve_out a rin rout (Nat.pos_of_ne_zero ha)
  have h1 : q * (rin + a) ≤ a * rout := hq ▸ quote_floor_mul_le a rin rout
  zify [hqr]
  nlinarith [h1]

/-- Claim C3: for every `amount_in > 0` and strictly positive reserves for
which `quote` returns `amount_out`, the swap's reserve update never decreases
the reserve product — both for the raw `(reserve_in, reserve_out)` update and
for the actual `execute_swap` pool update in either direction. -/
theorem c3_k_nondecreasing :
    (∀ a rin rout q : Nat, a < U64 → rin < U64 → rout < U64 →
      get_amount_out a rin rout = .ok q →
      rin * rout ≤ (rin + a) * (rout - q)) ∧
    (∀ (pool : Pool) (t1 t2 : Bool) (a m : Nat) (d : SwapDirection)
      (pool' : Pool) (out : Nat),
      a < U64 → pool.token_a_reserve < U64 → pool.token_b_reserve < U64 →
      execute_swap pool t1 t2 a m d = .ok (pool', out) →
      pool.token_a_reserve * pool.token_b_reserve ≤
        pool'.token_a_reserve * pool'.token_b_reserve) := by
  refine ⟨fun a rin rout q hau hri hro h =>
    quote_k_nondecreasing a rin rout q hau hri hro h, ?_⟩
  intro pool t1 t2 a m d pool' out hau ha hb h
  unfold execute_swap at h
  cases d with
  | aToB =>
    dsimp only at h
    cases hget : get_amount_out a pool.token_a_reserve pool.token_b_reserve with
    | error e => rw [hget] at h; cases h
    | ok amount_out =>
      rw [hget] at h
      dsimp only at h
      split at h
      · cases h
      split at h
      · cases h
      split at h
      · cases h
      split at h
      · cases h
      split at h
      · cases h
      split at h
      · cases h
      split at h
      · cases h
      have h2 := Except.ok.inj h
      rw [Prod.mk.injEq] at h2
      obtain ⟨hp, hout⟩ := h2
      subst hout
      have hk := quote_k_nondecreasing a pool.token_a_reserve
        pool.token_b_reserve amount_out hau ha hb hget
      rw [← hp]
      simpa [Nat.add_comm] using hk
  | bToA =>
    dsimp only at h
    cases hget : get_amount_out a pool.token_b_reserve pool.token_a_reserve with
    | error e => rw [hget] at h; cases h
    | ok amount_out =>
      rw [hget] at h
      dsimp only at h
      split at h
      · cases h
      split at h
      · cases h
      split at h
      · cases h
      split at h
      · cases h
      split at h
      · cases h
      split at h
      · cases h
      split at h
      · cases h
      have h2 := Except.ok.inj h
      rw [Prod.mk.injEq] at h2
      obtain ⟨hp, hout⟩ := h2
      subst hout
      have hk := quote_k_nondecreasing a pool.token_b_reserve
        pool.token_a_reserve amount_out hau hb ha hget
      rw [← hp]
      dsimp only
      calc pool.token_a_reserve * pool.token_b_reserve
          = pool.token_b_reserve * pool.token_a_reserve := Nat.mul_comm _ _
        _ ≤ (pool.token_b_reserve + a) * (pool.token_a_reserve - amount_out) := hk
        _ = (pool.token_a_reserve - amount_out) * (pool.token_b_reserve + a) :=
            Nat.mul_comm _ _

/-- Witness for `c3_k_nondecreasing`: both conjuncts applied at the concrete
swap `amount_in = 10^9` against reserves `10^10 / 10^10`. -/
theorem c3_k_nondecreasing_witness :
    10000000000 * 10000000000 ≤
      (10000000000 + 1000000000) * (10000000000 - 906610893) ∧
    10000000000 * 10000000000 ≤ 11000000000 * 9093389107 := by
  constructor
  · exact c3_k_nondecreasing.1 1000000000 10000000000 10000000000 906610893
      (by norm_num [U64]) (by norm_num [U64]) (by norm_num [U64]) (by rfl)
  · have h := c3_k_nondecreasing.2
      { token_a_mint := [1], token_b_mint := [2], token_a_reserve := 10000000000,
        token_b_reserve := 10000000000, k := 0, bump := 0, authority := [3],
        total_fees_a := 0, total_fees_b := 0 } true true 1000000000 0 .aToB
      { token_a_mint := [1], token_b_mint := [2], token_a_reserve := 11000000000,
        token_b_reserve := 9093389107, k := 0, bump := 0, authority := [3],
        total_fees_a := 3000000, total_fees_b := 0 } 906610893
      (by norm_num [U64]) (by norm_num [U64]) (by norm_num [U64]) (by rfl)
    exact h

/-- Claim C9: whenever `quote` succeeds on `u64` inputs, the returned
`amount_out` is strictly below the ideal no-fee rational value
`amount_in * reserve_out / reserve_in`. -/
theorem c9_fee_reduces_output :
    ∀ a rin rout q : Nat, a < U64 → rin < U64 → rout < U64 →
      get_amount_out a rin rout = .ok q →
      (q : ℚ) < (a : ℚ) * (rout : ℚ) / (rin : ℚ) := by
  intro a rin rout q hau hri hro h
  obtain ⟨ha, hrin, hrout, _, hq⟩ := get_amount_out_ok_inv a rin rout q hau hri hro h
  have hlt : q * rin < a * rout := hq ▸ quote_floor_mul_lt a rin rout
    (Nat.pos_of_ne_zero ha) (Nat.pos_of_ne_zero hrout)
  have hrinQ : (0 : ℚ) < (rin : ℚ) := by exact_mod_cast Nat.pos_of_ne_zero hrin
  rw [lt_div_iff₀ hrinQ]
  exact_mod_cast hlt

/-- Witness for `c9_fee_reduces_output`: the quote of `10^9` against reserves
`10^10 / 10^10` is `906610893`, strictly less than the ideal `10^9`. -/
theorem c9_fee_reduces_output_witness :
    (((906610893 : Nat)) : ℚ) <
      ((1000000000 : Nat) : ℚ) * ((10000000000 : Nat) : ℚ) /
        ((10000000000 : Nat) : ℚ) :=
  c9_fee_reduces_output 1000000000 10000000000 10000000000 906610893
    (by norm_num [U64]) (by norm_num [U64]) (by norm_num [U64]) (by rfl)

/-- Generic floor-division lower bound: if `D1 * (D1 + k) ≤ k * n` then the
floor `n / D1` is large enough that `n < (n / D1) * (D1 + k)`. -/
theorem div_mul_lower (n D1 k : Nat) (hD1 : 0 < D1) (hk : 0 < k)
    (hS : D1 * (D1 + k) ≤ k * n) : n < n / D1 * (D1 + k) := by
  set s := n / D1 with hs
  set r := n % D1 with hr
  have hnd : D1 * s + r = n := Nat.div_add_mod n D1
  have hrlt : r < D1 := Nat.mod_lt _ hD1
  have h1 : k * n = k * (D1 * s) + k * r := by rw [← hnd]; ring
  have hkr : k * r < k * D1 := (Nat.mul_lt_mul_left hk).mpr hrlt
  have h2 : D1 * (D1 + k) < D1 * (k * s + k) := by nlinarith [hS, h1, hkr]
  have h3 : D1 + k < k * s + k := Nat.lt_of_mul_lt_mul_left h2
  have h4 : D1 < k * s := by omega
  calc n = D1 * s + r := hnd.symm
    _ < D1 * s + k * s := by omega
    _ = s * (D1 + k) := by ring

theorem quote_floor_5e9 (R : Nat) :
    quote_floor 5000000000 R R =
      4985000000000 * R / (1000 * R + 4985000000000) := by
  unfold quote_floor
  rw [Nat.mul_comm R 1000]

theorem quote_floor_1e8 (R : Nat) :
    quote_floor 100000000 R R =
      99700000000 * R / (1000 * R + 99700000000) := by
  unfold quote_floor
  rw [Nat.mul_comm R 1000]

/-- Core of the price-impact comparison: on the amended reserve range the
large trade's floor quote is strictly below 50 times the small trade's. -/
theorem c10_core (R : Nat) (h2 : 2 ≤ R) (hmax : R ≤ 497004495014999999) :
    4985000000000 * R / (1000 * R + 4985000000000) <
      50 * (99700000000 * R / (1000 * R + 99700000000)) := by
  set D1 := 1000 * R + 99700000000 with hD1def
  set D2 := 1000 * R + 4985000000000 with hD2def
  have hD1 : 0 < D1 := by omega
  have hD2 : 0 < D2 := by omega
  set s := 99700000000 * R / D1 with hs
  have hkey : 99700000000 * R < s * D2 := by
    by_cases hsplit : R < 9940089900300000
    · have hB : R ≤ 9940089900299999 := by omega
      have h1 : R * R ≤ 9940089900299999 * R := Nat.mul_le_mul_right R hB
      have hup : 477124315015000001000000 * 2 ≤ 477124315015000001000000 * R :=
        Nat.mul_le_mul_left _ h2
      have hquad : D1 * (D1 + 4885300000000) ≤
          4885300000000 * (99700000000 * R) := by
        rw [hD1def]
        nlinarith [h1, hup]
      have hlow := div_mul_lower (99700000000 * R) D1 4885300000000 hD1
        (by norm_num) hquad
      have hDD : D1 + 4885300000000 = D2 := by omega
      rw [hDD] at hlow
      exact hlow
    · push_neg at hsplit
      have hsval : s = 99699999 := by
        rw [hs]
        apply Nat.div_eq_of_lt_le
        · omega
        · omega
      rw [hsval]
      omega
  rw [Nat.div_lt_iff_lt_mul hD2]
  calc 4985000000000 * R = 50 * (99700000000 * R) := by ring
    _ < 50 * (s * D2) := (Nat.mul_lt_mul_left (by norm_num)).mpr hkey
    _ = 50 * s * D2 := by ring

/-- Claim C10, counterexample: the claimed strict rate comparison fails at the
equal reserves `R = 1` (both quotes floor to `0`, so the rates are equal) and
at `R = 497004495015000000` (both effective rates are exactly `0.99699999`,
again equal, with all quotes succeeding). -/
theorem c10_rate_counterexample :
    (get_amount_out 5000000000 1 1 = .ok 0 ∧
     get_amount_out 100000000 1 1 = .ok 0 ∧
     ¬ ((0 : ℚ) / 5000000000 < (0 : ℚ) / 100000000)) ∧
    (get_amount_out 5000000000 497004495015000000 497004495015000000 =
       .ok 4984999950 ∧
     get_amount_out 100000000 497004495015000000 497004495015000000 =
       .ok 99699999 ∧
     ¬ ((4984999950 : ℚ) / 5000000000 < (99699999 : ℚ) / 100000000)) := by
  refine ⟨⟨rfl, rfl, by norm_num⟩, ⟨rfl, rfl, by norm_num⟩⟩

/-- Claim C10 (amended): for equal reserves `R` with
`2 ≤ R ≤ 497004495014999999`, both quotes succeed with the floor values and
the effective rate of the `5·10^9` trade is strictly worse than that of the
`10^8` trade. Outside this range the comparison fails (see the
counterexample): at `R = 1` both quotes are zero, and from
`R = 497004495015000000` upward rounding makes the large trade's rate at
least as good. -/
theorem c10_large_trade_worse_rate (R : Nat)
    (h2 : 2 ≤ R) (hmax : R ≤ 497004495014999999) :
    get_amount_out 5000000000 R R = .ok (quote_floor 5000000000 R R) ∧
    get_amount_out 100000000 R R = .ok (quote_floor 100000000 R R) ∧
    (quote_floor 5000000000 R R : ℚ) / 5000000000 <
      (quote_floor 100000000 R R : ℚ) / 100000000 := by
  have hRU : R < U64 := by norm_num [U64]; omega
  have hR0 : R ≠ 0 := by omega
  have hnumL : 5000000000 * 997 * R < U128 := by
    calc 5000000000 * 997 * R ≤ 5000000000 * 997 * 497004495014999999 :=
          Nat.mul_le_mul_left _ hmax
      _ < U128 := by norm_num [U128]
  have hnumS : 100000000 * 997 * R < U128 := by
    calc 100000000 * 997 * R ≤ 100000000 * 997 * 497004495014999999 :=
          Nat.mul_le_mul_left _ hmax
      _ < U128 := by norm_num [U128]
  refine ⟨get_amount_out_ok 5000000000 R R (by norm_num [U64]) hRU hRU
      (by norm_num) hR0 hR0 hnumL,
    get_amount_out_ok 100000000 R R (by norm_num [U64]) hRU hRU
      (by norm_num) hR0 hR0 hnumS, ?_⟩
  have hcore := c10_core R h2 hmax
  rw [← quote_floor_5e9, ← quote_floor_1e8] at hcore
  rw [div_lt_div_iff₀ (by norm_num) (by norm_num)]
  have : (quote_floor 5000000000 R R : ℚ) * 100000000 <
      ((50 * quote_floor 100000000 R R : Nat) : ℚ) * 100000000 := by
    have := hcore
    push_cast
    have hq : (quote_floor 5000000000 R R : ℚ) <
        50 * (quote_floor 100000000 R R : ℚ) := by exact_mod_cast hcore
    nlinarith [hq]
  calc (quote_floor 5000000000 R R : ℚ) * 100000000
      < ((50 * quote_floor 100000000 R R : Nat) : ℚ) * 100000000 := this
    _ = (quote_floor 100000000 R R : ℚ) * 5000000000 := by push_cast; ring

/-- Witness for `c10_large_trade_worse_rate`: applied at equal reserves
`R = 1000`. -/
theorem c10_large_trade_worse_rate_witness :
    get_amount_out 5000000000 1000 1000 = .ok (quote_floor 5000000000 1000 1000) ∧
    get_amount_out 100000000 1000 1000 = .ok (quote_floor 100000000 1000 1000) ∧
    (quote_floor 5000000000 1000 1000 : ℚ) / 5000000000 <
      (quote_floor 100000000 1000 1000 : ℚ) / 100000000 :=
  c10_large_trade_worse_rate 1000 (by norm_num) (by norm_num)

/-- 32-byte values (roots, nullifier hashes, field elements, account keys) as
byte lists. -/
abbrev Word := List Nat

/-- The all-zero 32-byte word. -/
def zeroWord : Word := List.replicate 32 0

/-- `state/shielded.rs`: `ROOT_HISTORY_SIZE`. -/
def ROOT_HISTORY_SIZE : Nat := 32

/-- `state/shielded.rs`: `ShieldedRootHistory`. The flat
`roots: [u8; ROOT_HISTORY_BYTES]` array is represented as its aligned 32-slot
view `roots : List Word` (both `append_root` and `contains_root` access only
whole aligned 32-byte slices `roots[i*32..(i+1)*32]`). -/
structure ShieldedRootHistory where
  current_index : Nat
  pool : Word
  roots : List Word
deriving DecidableEq, Repr

/-- `state/shielded.rs`: `append_root` — write at slot
`current_index % ROOT_HISTORY_SIZE`, then bump the cursor. -/
def ShieldedRootHistory.append_root (h : ShieldedRootHistory) (new_root : Word) :
    ShieldedRootHistory :=
  { h with roots := h.roots.set (h.current_index % ROOT_HISTORY_SIZE) new_root,
           current_index := h.current_index + 1 }

/-- `state/shielded.rs`: `contains_root` — slice-for-slice equality scan of
the 32 resident slots. -/
def ShieldedRootHistory.contains_root (h : ShieldedRootHistory) (root : Word) :
    Bool :=
  decide (root ∈ h.roots)

/-- `shielded_pool.rs`: `initialize_shielded_root_history` (shortened to
`init_…` here): after its authority/key checks it zeroes every slot, resets
the cursor and records the owning pool. -/
def init_shielded_root_history (pool_key : Word) : ShieldedRootHistory :=
  { current_index := 0, pool := pool_key,
    roots := List.replicate ROOT_HISTORY_SIZE zeroWord }

/-- A sequence of `append_root` calls. -/
def ShieldedRootHistory.append_list (h : ShieldedRootHistory) (rs : List Word) :
    ShieldedRootHistory :=
  rs.foldl ShieldedRootHistory.append_root h

/-- `state/roots.rs`: `StateRootHistory` — same ring-buffer shape with
capacity 100, `roots: [u8; 3200]` viewed as 100 aligned 32-byte slots. -/
structure StateRootHistory where
  roots : List Word
  current_index : Nat
  authority : Word
deriving DecidableEq, Repr

/-- `state/roots.rs`: `append` — write at slot `current_index % 100`, bump. -/
def StateRootHistory.append (h : StateRootHistory) (new_root : Word) :
    StateRootHistory :=
  { h with roots := h.roots.set (h.current_index % 100) new_root,
           current_index := h.current_index + 1 }

/-- `state/roots.rs`: `contains` — equality scan of the 100 resident slots. -/
def StateRootHistory.contains (h : StateRootHistory) (root : Word) : Bool :=
  decide (root ∈ h.roots)

/-- A sequence of `append` calls. -/
def StateRootHistory.append_list (h : StateRootHistory) (rs : List Word) :
    StateRootHistory :=
  rs.foldl StateRootHistory.append h

/-- A freshly allocated (Anchor `init`, hence zeroed) `StateRootHistory`. -/
def fresh_state_root_history (authority : Word) : StateRootHistory :=
  { roots := List.replicate 100 zeroWord, current_index := 0,
    authority := authority }

/-- Setting the element right after a block keeps the block intact. -/
theorem set_append_length (xs l : List Word) (y : Word) :
    (xs ++ l).set xs.length y = xs ++ l.set 0 y := by
  induction xs with
  | nil => rfl
  | cons a as ih => simp [List.set, ih]

/-- First `n ≤ 32` appends on a freshly initialized shielded history land in
slots `0..n-1` in order; the remaining slots still hold the zero word. -/
theorem append_list_fresh (pk : Word) :
    ∀ rs : List Word, rs.length ≤ 32 →
      ((init_shielded_root_history pk).append_list rs).roots
          = rs ++ List.replicate (32 - rs.length) zeroWord ∧
      ((init_shielded_root_history pk).append_list rs).current_index
          = rs.length := by
  intro rs
  induction rs using List.reverseRecOn with
  | nil => exact fun _ => ⟨rfl, rfl⟩
  | append_singleton xs y ih =>
    intro hlen
    rw [List.length_append, List.length_singleton] at hlen
    have hxs : xs.length ≤ 32 := by omega
    have hlt : xs.length < 32 := by omega
    obtain ⟨hr, hi⟩ := ih hxs
    have happ : (init_shielded_root_history pk).append_list (xs ++ [y])
        = ((init_shielded_root_history pk).append_list xs).append_root y := by
      simp [ShieldedRootHistory.append_list, List.foldl_append]
    rw [happ]
    unfold ShieldedRootHistory.append_root
    rw [hr, hi]
    have hmod : xs.length % ROOT_HISTORY_SIZE = xs.length :=
      Nat.mod_eq_of_lt (by simpa [ROOT_HISTORY_SIZE] using hlt)
    constructor
    · simp only [hmod]
      rw [set_append_length]
      have hrep : (List.replicate (32 - xs.length) zeroWord).set 0 y
          = y :: List.replicate (32 - (xs.length + 1)) zeroWord := by
        obtain ⟨m, hm⟩ : ∃ m, 32 - xs.length = m + 1 := ⟨31 - xs.length, by omega⟩
        rw [hm, List.replicate_succ]
        simp only [List.set]
        congr 2
        omega
      rw [hrep]
      simp [List.length_append]
    · simp [List.length_append]

/-- Appending a 33rd root to a freshly initialized shielded history wraps to
slot 0 and overwrites the first appended root. -/
theorem append_list_fresh_wrap (pk : Word) (ys : List Word) (y : Word)
    (h : ys.length = 32) :
    ((init_shielded_root_history pk).append_list (ys ++ [y])).roots
      = ys.set 0 y := by
  have happ : (init_shielded_root_history pk).append_list (ys ++ [y])
      = ((init_shielded_root_history pk).append_list ys).append_root y := by
    simp [ShieldedRootHistory.append_list, List.foldl_append]
  obtain ⟨hr, hi⟩ := append_list_fresh pk ys (le_of_eq h)
  rw [happ]
  unfold ShieldedRootHistory.append_root
  rw [hr, hi, h]
  simp [ROOT_HISTORY_SIZE]

/-- Analogue of `append_list_fresh` for the capacity-100 state history. -/
theorem state_append_list_fresh (ak : Word) :
    ∀ rs : List Word, rs.length ≤ 100 →
      ((fresh_state_root_history ak).append_list rs).roots
          = rs ++ List.replicate (100 - rs.length) zeroWord ∧
      ((fresh_state_root_history ak).append_list rs).current_index
          = rs.length := by
  intro rs
  induction rs using List.reverseRecOn with
  | nil => exact fun _ => ⟨rfl, rfl⟩
  | append_singleton xs y ih =>
    intro hlen
    rw [List.length_append, List.length_singleton] at hlen
    have hxs : xs.length ≤ 100 := by omega
    have hlt : xs.length < 100 := by omega
    obtain ⟨hr, hi⟩ := ih hxs
    have happ : (fresh_state_root_history ak).append_list (xs ++ [y])
        = ((fresh_state_root_history ak).append_list xs).append y := by
      simp [StateRootHistory.append_list, List.foldl_append]
    rw [happ]
    unfold StateRootHistory.append
    rw [hr, hi]
    have hmod : xs.length % 100 = xs.length := Nat.mod_eq_of_lt hlt
    constructor
    · simp only [hmod]
      rw [set_append_length]
      have hrep : (List.replicate (100 - xs.length) zeroWord).set 0 y
          = y :: List.replicate (100 - (xs.length + 1)) zeroWord := by
        obtain ⟨m, hm⟩ : ∃ m, 100 - xs.length = m + 1 := ⟨99 - xs.length, by omega⟩
        rw [hm, List.replicate_succ]
        simp only [List.set]
        congr 2
        omega
      rw [hrep]
      simp [List.length_append]
    · simp [List.length_append]

/-- Appending a 101st root to a fresh state history wraps to slot 0. -/
theorem state_append_list_fresh_wrap (ak : Word) (ys : List Word) (y : Word)
    (h : ys.length = 100) :
    ((fresh_state_root_history ak).append_list (ys ++ [y])).roots
      = ys.set 0 y := by
  have happ : (fresh_state_root_history ak).append_list (ys ++ [y])
      = ((fresh_state_root_history ak).append_list ys).append y := by
    simp [StateRootHistory.append_list, List.foldl_append]
  obtain ⟨hr, hi⟩ := state_append_list_fresh ak ys (le_of_eq h)
  rw [happ]
  unfold StateRootHistory.append
  rw [hr, hi, h]
  simp

/-- The first `n + 1` values of `r`, with the head made explicit. -/
theorem map_range_succ_cons (r : Nat → Word) (n : Nat) :
    List.map r (List.range (n + 1))
      = r 0 :: List.map (fun i => r (i + 1)) (List.range n) := by
  rw [List.range_succ_eq_map, List.map_cons, List.map_map]
  rfl

/-- Membership in the buffer after `capacity + 1` appends of `r 0 … r cap` on
a fresh buffer: exactly the values `r 1 … r cap` remain. -/
theorem wrap_roots_mem (l : List Word) (r : Nat → Word) (n : Nat) (x : Word)
    (hl : l = (List.map r (List.range (n + 1))).set 0 (r (n + 1))) :
    x ∈ l ↔ (x = r (n + 1) ∨ ∃ i, i < n ∧ x = r (i + 1)) := by
  subst hl
  rw [map_range_succ_cons]
  simp only [List.set]
  simp [List.mem_map, eq_comm]

/-- Claim C7: for both root-history structures, `contains` is true iff the
root is byte-for-byte resident in the buffer; and after appending
`capacity + 1` distinct roots `r 0 … r capacity` to a fresh buffer, the
oldest appended root `r 0` is no longer contained while each of the most
recent `capacity` roots `r 1 … r capacity` still is. -/
theorem c7_root_history_window :
    (∀ (h : ShieldedRootHistory) (root : Word),
      h.contains_root root = true ↔ root ∈ h.roots) ∧
    (∀ (h : StateRootHistory) (root : Word),
      h.contains root = true ↔ root ∈ h.roots) ∧
    (∀ (pk : Word) (r : Nat → Word),
      (∀ i j, i ≤ 32 → j ≤ 32 → r i = r j → i = j) →
      ((init_shielded_root_history pk).append_list
          (List.map r (List.range 33))).contains_root (r 0) = false ∧
      ∀ j, 1 ≤ j → j ≤ 32 →
        ((init_shielded_root_history pk).append_list
          (List.map r (List.range 33))).contains_root (r j) = true) ∧
    (∀ (ak : Word) (r : Nat → Word),
      (∀ i j, i ≤ 100 → j ≤ 100 → r i = r j → i = j) →
      ((fresh_state_root_history ak).append_list
          (List.map r (List.range 101))).contains (r 0) = false ∧
      ∀ j, 1 ≤ j → j ≤ 100 →
        ((fresh_state_root_history ak).append_list
          (List.map r (List.range 101))).contains (r j) = true) := by
  refine ⟨fun h root => by simp [ShieldedRootHistory.contains_root],
    fun h root => by simp [StateRootHistory.contains], ?_, ?_⟩
  · intro pk r hinj
    have hsplit : List.map r (List.range 33)
        = List.map r (List.range 32) ++ [r 32] := by
      rw [List.range_succ, List.map_append]
      rfl
    have hroots : ((init_shielded_root_history pk).append_list
        (List.map r (List.range 33))).roots
          = (List.map r (List.range 32)).set 0 (r 32) := by
      rw [hsplit]
      exact append_list_fresh_wrap pk _ _ (by simp)
    have hmem := fun x => wrap_roots_mem _ r 31 x hroots
    constructor
    · unfold ShieldedRootHistory.contains_root
      rw [decide_eq_false_iff_not, hmem (r 0)]
      rintro (h32 | ⟨i, hi, hri⟩)
      · exact absurd (hinj 0 32 (by norm_num) (by norm_num) h32) (by norm_num)
      · exact absurd (hinj 0 (i + 1) (by norm_num) (by omega) hri) (by omega)
    · intro j hj1 hj32
      unfold ShieldedRootHistory.contains_root
      rw [decide_eq_true_eq, hmem (r j)]
      by_cases hj : j = 32
      · exact Or.inl (by rw [hj])
      · exact Or.inr ⟨j - 1, by omega, congrArg r (by omega)⟩
  · intro ak r hinj
    have hsplit : List.map r (List.range 101)
        = List.map r (List.range 100) ++ [r 100] := by
      rw [List.range_succ, List.map_append]
      rfl
    have hroots : ((fresh_state_root_history ak).append_list
        (List.map r (List.range 101))).roots
          = (List.map r (List.range 100)).set 0 (r 100) := by
      rw [hsplit]
      exact state_append_list_fresh_wrap ak _ _ (by simp)
    have hmem := fun x => wrap_roots_mem _ r 99 x hroots
    constructor
    · unfold StateRootHistory.contains
      rw [decide_eq_false_iff_not, hmem (r 0)]
      rintro (h100 | ⟨i, hi, hri⟩)
      · exact absurd (hinj 0 100 (by norm_num) (by norm_num) h100) (by norm_num)
      · exact absurd (hinj 0 (i + 1) (by norm_num) (by omega) hri) (by omega)
    · intro j hj1 hj100
      unfold StateRootHistory.contains
      rw [decide_eq_true_eq, hmem (r j)]
      by_cases hj : j = 100
      · exact Or.inl (by rw [hj])
      · exact Or.inr ⟨j - 1, by omega, congrArg r (by omega)⟩

/-- Witness for `c7_root_history_window`: the eviction scenario run with the
concrete distinct roots `r i = [i]` on both capacities. -/
theorem c7_root_history_window_witness :
    ((init_shielded_root_history [7]).append_list
        (List.map (fun i => [i]) (List.range 33))).contains_root [0] = false ∧
    ((init_shielded_root_history [7]).append_list
        (List.map (fun i => [i]) (List.range 33))).contains_root [5] = true ∧
    ((fresh_state_root_history [8]).append_list
        (List.map (fun i => [i]) (List.range 101))).contains [0] = false ∧
    ((fresh_state_root_history [8]).append_list
        (List.map (fun i => [i]) (List.range 101))).contains [100] = true := by
  have hinj32 : ∀ i j, i ≤ 32 → j ≤ 32 → ([i] : Word) = [j] → i = j :=
    fun i j _ _ h => by simpa using h
  have hinj100 : ∀ i j, i ≤ 100 → j ≤ 100 → ([i] : Word) = [j] → i = j :=
    fun i j _ _ h => by simpa using h
  obtain ⟨h1, h2⟩ := c7_root_history_window.2.2.1 [7] (fun i => [i]) hinj32
  obtain ⟨h3, h4⟩ := c7_root_history_window.2.2.2 [8] (fun i => [i]) hinj100
  exact ⟨h1, h2 5 (by norm_num) (by norm_num), h3,
    h4 100 (by norm_num) (by norm_num)⟩

/-- The system program's identity (base58 `11111111111111111111111111111111`,
i.e. 32 zero bytes). -/
def system_program_id : Word := List.replicate 32 0

/-- `math.rs`: `verify_zk_proof`. The external verifier program is modelled as
an oracle `verifier_cpi` from the CPI instruction data (which the code builds
as `proof ++ public_inputs`) to acceptance; a non-success CPI response maps to
`InvalidProof`. The guard rejects the system-program identity with
`InvalidVerifier` before the oracle is consulted. -/
def verify_zk_proof (verifier_program : Word) (verifier_cpi : List Nat → Bool)
    (proof public_inputs : List Nat) : Except Err Unit :=
  if verifier_program = system_program_id then .error .invalidVerifier
  else if verifier_cpi (proof ++ public_inputs) then .ok ()
  else .error .invalidProof

/-- `shielded_pool.rs`: `PUBLIC_INPUTS_LEN`. -/
def PUBLIC_INPUTS_LEN : Nat := 6

/-- `shielded_pool.rs`: `parse_field` — 32-byte field at `index`, after an
optional 12-byte header detected by exact total length `6*32 + 12`. -/
def parse_field (public_inputs : List Nat) (index : Nat) : Except Err Word :=
  let header := if public_inputs.length = PUBLIC_INPUTS_LEN * 32 + 12 then 12 else 0
  let start := header + index * 32
  if public_inputs.length < start + 32 then .error .invalidProof
  else .ok ((public_inputs.drop start).take 32)

/-- Big-endian byte-list to natural number. -/
def be_bytes_to_nat (bs : List Nat) : Nat :=
  bs.foldl (fun acc b => acc * 256 + b) 0

/-- `shielded_pool.rs`: `field_to_u64` — requires the high 24 bytes to be
zero, reads the low 8 bytes big-endian. -/
def field_to_u64 (field_bytes : Word) : Except Err Nat :=
  if (field_bytes.take 24).any (fun b => decide (b ≠ 0)) then .error .invalidProof
  else .ok (be_bytes_to_nat (field_bytes.drop 24))

/-- `shielded_pool.rs`: `pubkey_to_field_bytes` — the first 16 key bytes into
the low 16 bytes of a 32-byte field, high 16 bytes zero. -/
def pubkey_to_field_bytes (key : Word) : Word :=
  List.replicate 16 0 ++ key.take 16

/-- Anchor's 8-byte account discriminator for the `#[account] struct
Nullifier`: the first 8 bytes of `sha256("account:Nullifier")`, which
`Nullifier::try_deserialize` compares against the leading bytes of the
account data. -/
def nullifierDisc : List Nat := [18, 56, 142, 165, 181, 158, 187, 133]

/-- State of the record slot at the nullifier's derived identity, as the
surrounding ledger presents it: not yet created (owned by the system
program), owned by this program with the raw account data bytes, or
occupied by a third party. -/
inductive NullifierSlot where
  | absent
  | program (data : List Nat)
  | foreign
deriving DecidableEq, Repr

/-- The nullifier registry: the record store restricted to the derived
identities `find_program_address(["nullifier", pool, hash])`, which are in
bijection with the `(pool, nullifier_hash)` pairs. -/
abbrev NullifierStore := Word × Word → NullifierSlot

/-- `shielded_pool.rs`: `ensure_nullifier_account` over the raw record bytes
(`Nullifier::LEN = 8 + 1`). On a program-owned slot: data shorter than 9
bytes fails with `InvalidProof`; `Nullifier::try_deserialize` then compares
the leading 8 bytes against `nullifierDisc` (mismatch is Anchor's
`AccountDiscriminatorMismatch`) and Borsh-decodes the `spent` bool from
byte 8 (`0`/`1`, anything else is `AccountDidNotDeserialize`); a spent
record fails with `NullifierAlreadySpent`, an unspent one is re-persisted
with `nullifier.serialize(&mut &mut data[..])` — a plain Borsh write that
stores the bool at byte 0 and writes no discriminator. The create path
zero-allocates 9 bytes via the system program and persists the same way,
leaving `1` followed by 8 zero bytes. -/
def ensure_nullifier_account (st : NullifierStore)
    (pool_key nullifier_hash : Word) : Except Err NullifierStore :=
  match st (pool_key, nullifier_hash) with
  | .program data =>
      if data.length < 9 then .error .invalidProof
      else if data.take 8 ≠ nullifierDisc then
        .error .accountDiscriminatorMismatch
      else if data.getD 8 0 = 0 then
        .ok (Function.update st (pool_key, nullifier_hash)
            (.program (1 :: data.drop 1)))
      else if data.getD 8 0 = 1 then .error .nullifierAlreadySpent
      else .error .accountDidNotDeserialize
  | .foreign => .error .invalidShieldedAccount
  | .absent =>
      .ok (Function.update st (pool_key, nullifier_hash)
          (.program (1 :: List.replicate 8 0)))

/-- Claim C6: the proof-verification gateway rejects the system-program
("null verifier") identity with `InvalidVerifier` for every proof, public
input and external-verifier behaviour — the oracle is never consulted, and
verification is never silently skipped: success requires a non-null verifier
whose CPI accepted exactly the payload `proof ++ public_inputs`. -/
theorem c6_null_verifier_rejected :
    (∀ (verifier_cpi : List Nat → Bool) (proof public_inputs : List Nat),
      verify_zk_proof system_program_id verifier_cpi proof public_inputs
        = .error .invalidVerifier) ∧
    (∀ (vp : Word) (verifier_cpi : List Nat → Bool) (proof public_inputs : List Nat),
      verify_zk_proof vp verifier_cpi proof public_inputs = .ok () →
      vp ≠ system_program_id ∧ verifier_cpi (proof ++ public_inputs) = true) := by
  constructor
  · intro cpi proof pi
    unfold verify_zk_proof
    rw [if_pos rfl]
  · intro vp cpi proof pi h
    unfold verify_zk_proof at h
    by_cases hvp : vp = system_program_id
    · rw [if_pos hvp] at h; cases h
    · rw [if_neg hvp] at h
      refine ⟨hvp, ?_⟩
      by_cases hcpi : cpi (proof ++ pi) = true
      · exact hcpi
      · rw [if_neg (by simpa using hcpi)] at h; cases h

/-- Witness for `c6_null_verifier_rejected`: its second conjunct applied at a
concrete accepting verifier, plus the first at concrete bytes. -/
theorem c6_null_verifier_rejected_witness :
    verify_zk_proof system_program_id (fun _ => true) [1, 2] [3, 4]
        = .error .invalidVerifier ∧
    ([9] : Word) ≠ system_program_id ∧
      (fun _ => true) ([1, 2] ++ [3, 4]) = true :=
  ⟨c6_null_verifier_rejected.1 (fun _ => true) [1, 2] [3, 4],
   c6_null_verifier_rejected.2 [9] (fun _ => true) [1, 2] [3, 4] rfl⟩

/-- A successful consume always leaves the slot as a program-owned record of
at least `Nullifier::LEN` bytes whose first byte is the Borsh-written `1`,
and touches nothing else. -/
theorem ensure_ok_inv (st : NullifierStore) (pool h : Word) (st' : NullifierStore)
    (hok : ensure_nullifier_account st pool h = .ok st') :
    ∃ d, st' = Function.update st (pool, h) (.program (1 :: d)) ∧
      8 ≤ d.length := by
  unfold ensure_nullifier_account at hok
  cases hslot : st (pool, h) with
  | absent =>
    rw [hslot] at hok
    exact ⟨List.replicate 8 0, (Except.ok.inj hok).symm, by simp⟩
  | program data =>
    rw [hslot] at hok
    dsimp only at hok
    by_cases h1 : data.length < 9
    · rw [if_pos h1] at hok; cases hok
    rw [if_neg h1] at hok
    by_cases h2 : data.take 8 ≠ nullifierDisc
    · rw [if_pos h2] at hok; cases hok
    rw [if_neg h2] at hok
    by_cases h3 : data.getD 8 0 = 0
    · rw [if_pos h3] at hok
      refine ⟨data.drop 1, (Except.ok.inj hok).symm, ?_⟩
      simp only [List.length_drop]
      omega
    rw [if_neg h3] at hok
    by_cases h4 : data.getD 8 0 = 1
    · rw [if_pos h4] at hok; cases hok
    · rw [if_neg h4] at hok; cases hok
  | foreign => rw [hslot] at hok; cases hok

/-- The error behaviour of a consume depends only on the slot at the consumed
pair's derived identity. -/
theorem ensure_error_eq (st st2 : NullifierStore) (pool h : Word)
    (hs : st (pool, h) = st2 (pool, h)) :
    ∀ e, ensure_nullifier_account st pool h = .error e
        ↔ ensure_nullifier_account st2 pool h = .error e := by
  intro e
  unfold ensure_nullifier_account
  rw [hs]
  cases st2 (pool, h) with
  | absent => simp
  | foreign => exact Iff.rfl
  | program data =>
    dsimp only
    by_cases h1 : data.length < 9
    · rw [if_pos h1, if_pos h1]
    rw [if_neg h1, if_neg h1]
    by_cases h2 : data.take 8 ≠ nullifierDisc
    · rw [if_pos h2, if_pos h2]
    rw [if_neg h2, if_neg h2]
    by_cases h3 : data.getD 8 0 = 0
    · rw [if_pos h3, if_pos h3]; simp
    rw [if_neg h3, if_neg h3]

/-- A record written by either of the program's own persist paths never
starts with the account discriminator, so a later `try_deserialize` of it
must fail the discriminator comparison. -/
theorem written_record_no_disc (d : List Nat) :
    (1 :: d).take 8 ≠ nullifierDisc := by
  rw [List.take_succ_cons]
  simp [nullifierDisc]

/-- Claim C1, counterexample: on a concrete empty registry, the first
consume of pool `[1]`, hash `[2]` succeeds and creates the record, but both
persist paths write it with plain Borsh `serialize` and no Anchor
discriminator, so the second consume of the same pair fails
`Nullifier::try_deserialize`'s discriminator comparison with
`AccountDiscriminatorMismatch` — not with `NullifierAlreadySpent` as the
claim asserts. -/
theorem c1_nullifier_counterexample :
    ensure_nullifier_account (fun _ => .absent) [1] [2]
        = .ok (Function.update (fun _ => NullifierSlot.absent) ([1], [2])
            (.program (1 :: List.replicate 8 0))) ∧
    ensure_nullifier_account
        (Function.update (fun _ => NullifierSlot.absent) ([1], [2])
          (.program (1 :: List.replicate 8 0))) [1] [2]
        = .error .accountDiscriminatorMismatch ∧
    Err.accountDiscriminatorMismatch ≠ Err.nullifierAlreadySpent := by
  refine ⟨rfl, ?_, by decide⟩
  unfold ensure_nullifier_account
  rw [Function.update_same]
  rfl

/-- Claim C1, amended: per `(pool, nullifier-hash)` pair, a consume of a
system-owned slot succeeds by creating the 9-byte record `1, 0 × 8`, and a
consume of a program-owned record that carries the discriminator and an
unspent flag succeeds by Borsh-rewriting it to `1` followed by its tail —
in both cases no other slot changes; but every record the program itself
persists lacks the discriminator, so any consume after a successful one
fails with Anchor's `AccountDiscriminatorMismatch`, not with
`NullifierAlreadySpent`: success still happens at most once per pair, and
`NullifierAlreadySpent` itself can only arise from a discriminator-bearing
spent record that some earlier non-`serialize` writer produced — never from
this program's own writes. Third-party occupancy still fails with
`InvalidShieldedAccount`, and consuming a distinct nullifier-hash under the
same pool neither changes the pair's slot nor the error behaviour of its
consume. -/
theorem c1_nullifier_consume_once :
    (∀ (st : NullifierStore) (pool h : Word),
      st (pool, h) = .absent →
      ensure_nullifier_account st pool h
        = .ok (Function.update st (pool, h)
            (.program (1 :: List.replicate 8 0)))) ∧
    (∀ (st : NullifierStore) (pool h : Word) (d : List Nat),
      st (pool, h) = .program d → 9 ≤ d.length →
      d.take 8 = nullifierDisc → d.getD 8 0 = 0 →
      ensure_nullifier_account st pool h
        = .ok (Function.update st (pool, h) (.program (1 :: d.drop 1)))) ∧
    (∀ (st st' : NullifierStore) (pool h : Word),
      ensure_nullifier_account st pool h = .ok st' →
      ensure_nullifier_account st' pool h
        = .error .accountDiscriminatorMismatch) ∧
    (∀ (st : NullifierStore) (pool h : Word),
      ensure_nullifier_account st pool h = .error .nullifierAlreadySpent →
      ∃ d, st (pool, h) = .program d ∧ d.take 8 = nullifierDisc) ∧
    (∀ (st st' : NullifierStore) (pool h : Word) (p : Word × Word)
        (d : List Nat),
      ensure_nullifier_account st pool h = .ok st' →
      st' p = .program d → d.take 8 = nullifierDisc → st p = .program d) ∧
    (∀ (st : NullifierStore) (pool h : Word),
      st (pool, h) = .foreign →
      ensure_nullifier_account st pool h = .error .invalidShieldedAccount) ∧
    (∀ (st st' : NullifierStore) (pool h1 h2 : Word), h1 ≠ h2 →
      ensure_nullifier_account st pool h2 = .ok st' →
      st' (pool, h1) = st (pool, h1) ∧
      ∀ e, ensure_nullifier_account st' pool h1 = .error e
          ↔ ensure_nullifier_account st pool h1 = .error e) := by
  refine ⟨?_, ?_, ?_, ?_, ?_, ?_, ?_⟩
  · intro st pool h hs
    unfold ensure_nullifier_account
    rw [hs]
  · intro st pool h d hs hlen hdisc hb0
    unfold ensure_nullifier_account
    rw [hs]
    dsimp only
    rw [if_neg (by omega), if_neg (not_not_intro hdisc), if_pos hb0]
  · intro st st' pool h hok
    obtain ⟨d, hst', hlen⟩ := ensure_ok_inv st pool h st' hok
    subst hst'
    unfold ensure_nullifier_account
    rw [Function.update_same]
    dsimp only
    rw [if_neg (by simp only [List.length_cons]; omega),
      if_pos (written_record_no_disc d)]
  · intro st pool h herr
    unfold ensure_nullifier_account at herr
    cases hslot : st (pool, h) with
    | absent => rw [hslot] at herr; cases herr
    | foreign =>
      rw [hslot] at herr
      exact absurd (Except.error.inj herr) (by decide)
    | program data =>
      rw [hslot] at herr
      dsimp only at herr
      by_cases h1 : data.length < 9
      · rw [if_pos h1] at herr
        exact absurd (Except.error.inj herr) (by decide)
      rw [if_neg h1] at herr
      by_cases h2 : data.take 8 ≠ nullifierDisc
      · rw [if_pos h2] at herr
        exact absurd (Except.error.inj herr) (by decide)
      rw [if_neg h2] at herr
      by_cases h3 : data.getD 8 0 = 0
      · rw [if_pos h3] at herr; cases herr
      rw [if_neg h3] at herr
      by_cases h4 : data.getD 8 0 = 1
      · exact ⟨data, rfl, not_not.mp h2⟩
      · rw [if_neg h4] at herr
        exact absurd (Except.error.inj herr) (by decide)
  · intro st st' pool h p d hok hp hdisc
    obtain ⟨d0, hst', _⟩ := ensure_ok_inv st pool h st' hok
    subst hst'
    by_cases hk : p = (pool, h)
    · subst hk
      rw [Function.update_same] at hp
      have hd : d = 1 :: d0 := (NullifierSlot.program.inj hp).symm
      subst hd
      exact absurd hdisc (written_record_no_disc d0)
    · rwa [Function.update_noteq hk] at hp
  · intro st pool h hslot
    unfold ensure_nullifier_account
    rw [hslot]
  · intro st st' pool h1 h2 hne hok
    obtain ⟨d0, hst', _⟩ := ensure_ok_inv st pool h2 st' hok
    have hframe : st' (pool, h1) = st (pool, h1) := by
      rw [hst']
      exact Function.update_noteq (by simp [hne]) _ _
    exact ⟨hframe, ensure_error_eq st' st pool h1 hframe⟩

/-- Witness for `c1_nullifier_consume_once`: its parts applied to concrete
registries with pool `[1]` and hashes `[2]`, `[3]` — an empty slot, a
well-formed discriminator-bearing unspent record, the double spend, a
well-formed spent record, third-party occupancy, and the cross-hash frame. -/
theorem c1_nullifier_consume_once_witness :
    ensure_nullifier_account (fun _ => .absent) [1] [2]
        = .ok (Function.update (fun _ => NullifierSlot.absent) ([1], [2])
            (.program (1 :: List.replicate 8 0))) ∧
    ensure_nullifier_account
        (fun _ => .program (nullifierDisc ++ [0])) [1] [2]
        = .ok (Function.update
            (fun _ => NullifierSlot.program (nullifierDisc ++ [0]))
            ([1], [2]) (.program (1 :: (nullifierDisc ++ [0]).drop 1))) ∧
    ensure_nullifier_account
        (Function.update (fun _ => NullifierSlot.absent) ([1], [2])
          (.program (1 :: List.replicate 8 0))) [1] [2]
        = .error .accountDiscriminatorMismatch ∧
    (∃ d, (fun (_ : Word × Word) => NullifierSlot.program (nullifierDisc ++ [1]))
        ([1], [2]) = .program d ∧ d.take 8 = nullifierDisc) ∧
    ensure_nullifier_account (fun _ => .foreign) [1] [2]
        = .error .invalidShieldedAccount ∧
    Function.update (fun _ => NullifierSlot.absent) ([1], [2])
        (.program (1 :: List.replicate 8 0)) ([1], [3])
      = (fun _ => NullifierSlot.absent) ([1], [3]) := by
  have h1 := c1_nullifier_consume_once.1 (fun _ => .absent) [1] [2] rfl
  have h2 := c1_nullifier_consume_once.2.1
    (fun _ => .program (nullifierDisc ++ [0])) [1] [2] (nullifierDisc ++ [0])
    rfl (by decide) (by decide) (by decide)
  have h3 := c1_nullifier_consume_once.2.2.1 (fun _ => .absent) _ [1] [2] h1
  have h4 := c1_nullifier_consume_once.2.2.2.1
    (fun _ => .program (nullifierDisc ++ [1])) [1] [2] (by rfl)
  have h5 := c1_nullifier_consume_once.2.2.2.2.2.1 (fun _ => .foreign)
    [1] [2] rfl
  have h6 := (c1_nullifier_consume_once.2.2.2.2.2.2 (fun _ => .absent) _
    [1] [3] [2] (by simp) h1).1
  exact ⟨h1, h2, h3, h4, h5, h6⟩

/-- `state/shielded.rs`: the `ShieldedPool` account. -/
structure ShieldedPool where
  mint : Word
  vault : Word
  authority : Word
  current_root : Word
  root_history : Word
  next_index : Nat
  bump : Nat
deriving DecidableEq, Repr

/-- The slice of an SPL token account the orchestrators read (its mint);
`none` stands for account data that `spl_token::state::Account::unpack`
rejects. -/
structure TokenAccount where
  mint : Word
deriving DecidableEq, Repr

/-- `shielded_pool.rs`: `parse_token_account` — unpack failure maps to
`InvalidShieldedAccount`. -/
def parse_token_account (acc : Option TokenAccount) : Except Err TokenAccount :=
  match acc with
  | some a => .ok a
  | none => .error .invalidShieldedAccount

/-- The spec's state-machine step labels for a shielded call (§4.5). -/
inductive Step where
  | start
  | proofVerified
  | rootChecked
  | nullifierConsumed
  | assetMoved
  | done
deriving DecidableEq, Repr

/-- Everything a `withdraw_shielded` call reads: its arguments, the involved
accounts, the external verifier oracle, whether the vault→recipient token CPI
would succeed, and the nullifier registry. -/
structure WithdrawEnv where
  verifier_program : Word
  verifier_cpi : List Nat → Bool
  proof : List Nat
  public_inputs : List Nat
  amount : Nat
  nullifier_hash : Word
  shielded_pool : ShieldedPool
  shielded_pool_key : Word
  root_history_key : Word
  root_history : ShieldedRootHistory
  remaining_accounts : Nat
  vault_key : Word
  recipient_key : Word
  vault_account : Option TokenAccount
  recipient_account : Option TokenAccount
  transfer_ok : Bool
  nullifiers : NullifierStore

/-- `shielded_pool.rs`: `withdraw_shielded`, with the completed spec steps
recorded in order. The result is the trace together with either the final
nullifier registry (the only cross-call state the call mutates besides token
balances) or the aborting error; on-chain the whole transaction reverts on
error, so an `.error` outcome leaves no state change. `Step.assetMoved` is
recorded right after the vault→recipient transfer CPI is instructed,
`Step.nullifierConsumed` after `ensure_nullifier_account` returns. -/
def withdraw_shielded (e : WithdrawEnv) : List Step × Except Err NullifierStore :=
  let t0 := [Step.start]
  if e.public_inputs.length < PUBLIC_INPUTS_LEN * 32 then (t0, .error .invalidProof)
  else if e.remaining_accounts < 2 then (t0, .error .invalidShieldedAccount)
  else
    match verify_zk_proof e.verifier_program e.verifier_cpi e.proof e.public_inputs with
    | .error er => (t0, .error er)
    | .ok _ =>
      let t1 := t0 ++ [Step.proofVerified]
      match parse_field e.public_inputs 0 with
      | .error er => (t1, .error er)
      | .ok root_bytes =>
      match parse_field e.public_inputs 1 with
      | .error er => (t1, .error er)
      | .ok nullifier_hash_bytes =>
      match parse_field e.public_inputs 2 with
      | .error er => (t1, .error er)
      | .ok amount_field =>
      match parse_field e.public_inputs 3 with
      | .error er => (t1, .error er)
      | .ok recipient_field =>
      match parse_field e.public_inputs 4 with
      | .error er => (t1, .error er)
      | .ok mint_field =>
      match parse_field e.public_inputs 5 with
      | .error er => (t1, .error er)
      | .ok pool_field =>
      if e.vault_key ≠ e.shielded_pool.vault then (t1, .error .invalidShieldedAccount)
      else
        match parse_token_account e.vault_account with
        | .error er => (t1, .error er)
        | .ok vault_acc =>
        match parse_token_account e.recipient_account with
        | .error er => (t1, .error er)
        | .ok recipient_acc =>
        if vault_acc.mint ≠ e.shielded_pool.mint then
          (t1, .error .invalidShieldedAccount)
        else if recipient_acc.mint ≠ e.shielded_pool.mint then
          (t1, .error .invalidShieldedAccount)
        else if e.shielded_pool.root_history ≠ e.root_history_key then
          (t1, .error .invalidShieldedAccount)
        else if e.root_history.pool ≠ e.shielded_pool_key then
          (t1, .error .invalidShieldedAccount)
        else if ¬ e.root_history.contains_root root_bytes then
          (t1, .error .invalidStateRoot)
        else
          let t2 := t1 ++ [Step.rootChecked]
          if nullifier_hash_bytes ≠ e.nullifier_hash then (t2, .error .invalidProof)
          else
            match field_to_u64 amount_field with
            | .error er => (t2, .error er)
            | .ok proof_amount =>
              if proof_amount ≠ e.amount then (t2, .error .invalidProof)
              else if recipient_field ≠ pubkey_to_field_bytes e.recipient_key then
                (t2, .error .invalidProof)
              else if mint_field ≠ pubkey_to_field_bytes e.shielded_pool.mint then
                (t2, .error .invalidProof)
              else if pool_field ≠ pubkey_to_field_bytes e.shielded_pool_key then
                (t2, .error .invalidProof)
              else if ¬ e.transfer_ok then (t2, .error .cpiFailure)
              else
                let t3 := t2 ++ [Step.assetMoved]
                match ensure_nullifier_account e.nullifiers
                    e.shielded_pool_key e.nullifier_hash with
                | .error er => (t3, .error er)
                | .ok st' =>
                  (t3 ++ [Step.nullifierConsumed, Step.done], .ok st')

/-- Everything a `swap_private` call reads, analogous to `WithdrawEnv`; the
two token-transfer CPIs (shielded vault → AMM reserve-in, AMM reserve-out →
recipient) are the booleans. -/
structure SwapEnv where
  verifier_program : Word
  verifier_cpi : List Nat → Bool
  proof : List Nat
  public_inputs : List Nat
  amount_in : Nat
  min_out : Nat
  is_a_to_b : Bool
  nullifier_hash : Word
  pool : Pool
  input_shielded_pool : ShieldedPool
  input_shielded_pool_key : Word
  input_root_history : ShieldedRootHistory
  input_root_history_key : Word
  remaining_accounts : Nat
  shielded_vault_key : Word
  recipient_key : Word
  shielded_vault_account : Option TokenAccount
  reserve_in_account : Option TokenAccount
  reserve_out_account : Option TokenAccount
  recipient_account : Option TokenAccount
  transfer_in_ok : Bool
  transfer_out_ok : Bool
  nullifiers : NullifierStore

set_option maxHeartbeats 1000000 in
/-- `shielded_pool.rs`: `swap_private`, with the completed spec steps recorded
in order (the withdraw leg's step labels; `Step.assetMoved` is recorded after
the shielded-vault → reserve transfer, i.e. the swap's analogue of the
withdraw leg's vault debit). Returns the trace and, on success, the updated
nullifier registry and AMM pool. -/
def swap_private (e : SwapEnv) : List Step × Except Err (NullifierStore × Pool) :=
  let t0 := [Step.start]
  if e.public_inputs.length < PUBLIC_INPUTS_LEN * 32 then (t0, .error .invalidProof)
  else if e.remaining_accounts < 4 then (t0, .error .invalidShieldedAccount)
  else
    match verify_zk_proof e.verifier_program e.verifier_cpi e.proof e.public_inputs with
    | .error er => (t0, .error er)
    | .ok _ =>
      let t1 := t0 ++ [Step.proofVerified]
      match parse_field e.public_inputs 0 with
      | .error er => (t1, .error er)
      | .ok root_bytes =>
      match parse_field e.public_inputs 1 with
      | .error er => (t1, .error er)
      | .ok nullifier_hash_bytes =>
      match parse_field e.public_inputs 2 with
      | .error er => (t1, .error er)
      | .ok amount_field =>
      match parse_field e.public_inputs 3 with
      | .error er => (t1, .error er)
      | .ok recipient_field =>
      match parse_field e.public_inputs 4 with
      | .error er => (t1, .error er)
      | .ok mint_field =>
      match parse_field e.public_inputs 5 with
      | .error er => (t1, .error er)
      | .ok pool_field =>
      if pool_field ≠ pubkey_to_field_bytes e.input_shielded_pool_key then
        (t1, .error .invalidProof)
      else
        match field_to_u64 amount_field with
        | .error er => (t1, .error er)
        | .ok proof_amount =>
        if proof_amount ≠ e.amount_in then (t1, .error .invalidProof)
        else if nullifier_hash_bytes ≠ e.nullifier_hash then
          (t1, .error .invalidProof)
        else if recipient_field ≠ pubkey_to_field_bytes e.recipient_key then
          (t1, .error .invalidProof)
        else
          let expected_in_mint :=
            match e.is_a_to_b with
            | true => e.pool.token_a_mint
            | false => e.pool.token_b_mint
          let expected_out_mint :=
            match e.is_a_to_b with
            | true => e.pool.token_b_mint
            | false => e.pool.token_a_mint
          if mint_field ≠ pubkey_to_field_bytes expected_in_mint then
            (t1, .error .invalidProof)
          else
            match parse_token_account e.reserve_in_account with
            | .error er => (t1, .error er)
            | .ok reserve_in_acc =>
            match parse_token_account e.reserve_out_account with
            | .error er => (t1, .error er)
            | .ok reserve_out_acc =>
            match parse_token_account e.recipient_account with
            | .error er => (t1, .error er)
            | .ok recipient_acc =>
            if e.input_shielded_pool.mint ≠ expected_in_mint then
              (t1, .error .invalidProof)
            else if e.shielded_vault_key ≠ e.input_shielded_pool.vault then
              (t1, .error .invalidProof)
            else
              match parse_token_account e.shielded_vault_account with
              | .error er => (t1, .error er)
              | .ok shielded_vault_acc =>
              if shielded_vault_acc.mint ≠ e.input_shielded_pool.mint then
                (t1, .error .invalidProof)
              else if recipient_acc.mint ≠ expected_out_mint then
                (t1, .error .invalidProof)
              else if e.input_shielded_pool.root_history
                  ≠ e.input_root_history_key then
                (t1, .error .invalidProof)
              else if e.input_root_history.pool ≠ e.input_shielded_pool_key then
                (t1, .error .invalidProof)
              else if reserve_in_acc.mint ≠ expected_in_mint then
                (t1, .error .invalidProof)
              else if reserve_out_acc.mint ≠ expected_out_mint then
                (t1, .error .invalidProof)
              else if ¬ e.input_root_history.contains_root root_bytes then
                (t1, .error .invalidStateRoot)
              else
                let t2 := t1 ++ [Step.rootChecked]
                match ensure_nullifier_account e.nullifiers
                    e.input_shielded_pool_key e.nullifier_hash with
                | .error er => (t2, .error er)
                | .ok st' =>
                let t3 := t2 ++ [Step.nullifierConsumed]
                if ¬ e.transfer_in_ok then (t3, .error .cpiFailure)
                else
                  let t4 := t3 ++ [Step.assetMoved]
                  let rr : Nat × Nat :=
                    match e.is_a_to_b with
                    | true => (e.pool.token_a_reserve, e.pool.token_b_reserve)
                    | false => (e.pool.token_b_reserve, e.pool.token_a_reserve)
                  match get_amount_out e.amount_in rr.1 rr.2 with
                  | .error er => (t4, .error er)
                  | .ok amount_out =>
                  if amount_out < e.min_out then (t4, .error .slippageExceeded)
                  else if ¬ e.transfer_out_ok then (t4, .error .cpiFailure)
                  else match e.is_a_to_b with
                  | true =>
                    if U64 ≤ e.pool.token_a_reserve + e.amount_in then
                      (t4, .error .mathOverflow)
                    else if e.pool.token_b_reserve < amount_out then
                      (t4, .error .mathOverflow)
                    else
                      (t4 ++ [Step.done], .ok (st',
                        { e.pool with
                          token_a_reserve := e.pool.token_a_reserve + e.amount_in,
                          token_b_reserve := e.pool.token_b_reserve - amount_out }))
                  | false =>
                    if U64 ≤ e.pool.token_b_reserve + e.amount_in then
                      (t4, .error .mathOverflow)
                    else if e.pool.token_a_reserve < amount_out then
                      (t4, .error .mathOverflow)
                    else
                      (t4 ++ [Step.done], .ok (st',
                        { e.pool with
                          token_b_reserve := e.pool.token_b_reserve + e.amount_in,
                          token_a_reserve := e.pool.token_a_reserve - amount_out }))

/-- `field_to_u64` can only fail with `InvalidProof`. -/
theorem field_to_u64_error_inv (b : Word) (er : Err)
    (h : field_to_u64 b = .error er) : er = .invalidProof := by
  unfold field_to_u64 at h
  split at h
  · exact (Except.error.inj h).symm
  · cases h

/-- A freshly initialized shielded root history contains the all-zero root. -/
theorem init_contains_zero (pk : Word) :
    (init_shielded_root_history pk).contains_root zeroWord = true := by
  simp [ShieldedRootHistory.contains_root, init_shielded_root_history,
    List.mem_replicate, ROOT_HISTORY_SIZE]

/-- The claimed order of a withdraw call's steps (spec §4.5). -/
def withdraw_claimed_order : List Step :=
  [.start, .proofVerified, .rootChecked, .nullifierConsumed, .assetMoved, .done]

/-- The order `withdraw_shielded` actually performs: the vault→recipient
transfer is instructed before the nullifier record is consumed. -/
def withdraw_step_order : List Step :=
  [.start, .proofVerified, .rootChecked, .assetMoved, .nullifierConsumed, .done]

/-- The order `swap_private` performs (nullifier before asset movement). -/
def swap_step_order : List Step :=
  [.start, .proofVerified, .rootChecked, .nullifierConsumed, .assetMoved, .done]

/-- A concrete fully valid withdraw call: an accepting non-null verifier, a
192-byte all-zero public-input buffer (so every bound field is the zero
word / amount 0), a freshly initialized root history (which contains the
zero root), matching vault/recipient/mint/pool accounts, a succeeding
transfer CPI and an empty nullifier registry. -/
def example_withdraw_env : WithdrawEnv where
  verifier_program := [9]
  verifier_cpi := fun _ => true
  proof := []
  public_inputs := List.replicate 192 0
  amount := 0
  nullifier_hash := zeroWord
  shielded_pool :=
    { mint := zeroWord, vault := [1], authority := [3],
      current_root := zeroWord, root_history := [2], next_index := 0, bump := 0 }
  shielded_pool_key := zeroWord
  root_history_key := [2]
  root_history := init_shielded_root_history zeroWord
  remaining_accounts := 2
  vault_key := [1]
  recipient_key := zeroWord
  vault_account := some ⟨zeroWord⟩
  recipient_account := some ⟨zeroWord⟩
  transfer_ok := true
  nullifiers := fun _ => .absent

/-- A concrete fully valid private swap: like `example_withdraw_env` but with
amount 1 encoded big-endian in the public-input amount field, an A→B pool
with reserves 1000/1000, and matching reserve/recipient accounts. -/
def example_swap_env : SwapEnv where
  verifier_program := [9]
  verifier_cpi := fun _ => true
  proof := []
  public_inputs := List.replicate 95 0 ++ 1 :: List.replicate 96 0
  amount_in := 1
  min_out := 0
  is_a_to_b := true
  nullifier_hash := zeroWord
  pool :=
    { token_a_mint := zeroWord, token_b_mint := [5], token_a_reserve := 1000,
      token_b_reserve := 1000, k := 0, bump := 0, authority := [3],
      total_fees_a := 0, total_fees_b := 0 }
  input_shielded_pool :=
    { mint := zeroWord, vault := [1], authority := [3],
      current_root := zeroWord, root_history := [2], next_index := 0, bump := 0 }
  input_shielded_pool_key := zeroWord
  input_root_history := init_shielded_root_history zeroWord
  input_root_history_key := [2]
  remaining_accounts := 4
  shielded_vault_key := [1]
  recipient_key := zeroWord
  shielded_vault_account := some ⟨zeroWord⟩
  reserve_in_account := some ⟨zeroWord⟩
  reserve_out_account := some ⟨[5]⟩
  recipient_account := some ⟨[5]⟩
  transfer_in_ok := true
  transfer_out_ok := true
  nullifiers := fun _ => .absent

set_option maxRecDepth 8000 in
/-- Claim C8, counterexample: the concrete fully valid withdraw call succeeds
but performs `AssetMoved` before `NullifierConsumed` — the vault→recipient
transfer is instructed before the nullifier record is consumed, contradicting
the claimed `… → NullifierConsumed → AssetMoved → …` order. -/
theorem c8_step_order_counterexample :
    (withdraw_shielded example_withdraw_env).1
        = [.start, .proofVerified, .rootChecked, .assetMoved,
           .nullifierConsumed, .done] ∧
    (withdraw_shielded example_withdraw_env).2
        = .ok (Function.update example_withdraw_env.nullifiers
            (zeroWord, zeroWord) (.program (1 :: List.replicate 8 0))) ∧
    ([Step.start, .proofVerified, .rootChecked, .assetMoved,
      .nullifierConsumed, .done] : List Step)
        ≠ withdraw_claimed_order := by
  refine ⟨rfl, rfl, by decide⟩

/-- Exhaustive shape of a withdraw call's trace/result pair. -/
theorem withdraw_trace_cases (e : WithdrawEnv) :
    ((withdraw_shielded e).1 = withdraw_step_order.take 1
        ∧ (withdraw_shielded e).2.isOk = false) ∨
    ((withdraw_shielded e).1 = withdraw_step_order.take 2
        ∧ (withdraw_shielded e).2.isOk = false) ∨
    ((withdraw_shielded e).1 = withdraw_step_order.take 3
        ∧ (withdraw_shielded e).2.isOk = false) ∨
    ((withdraw_shielded e).1 = withdraw_step_order.take 4
        ∧ (withdraw_shielded e).2.isOk = false) ∨
    ((withdraw_shielded e).1 = withdraw_step_order
        ∧ (withdraw_shielded e).2.isOk = true) := by
  rcases hweq : withdraw_shielded e with ⟨t, r⟩
  unfold withdraw_shielded at hweq
  dsimp only at hweq
  by_cases h1 : e.public_inputs.length < PUBLIC_INPUTS_LEN * 32
  · rw [if_pos h1] at hweq
    injection hweq with hT hR
    subst hT
    subst hR
    simp [withdraw_step_order, Except.isOk, Except.toBool]
  rw [if_neg h1] at hweq
  by_cases h2 : e.remaining_accounts < 2
  · rw [if_pos h2] at hweq
    injection hweq with hT hR
    subst hT
    subst hR
    simp [withdraw_step_order, Except.isOk, Except.toBool]
  rw [if_neg h2] at hweq
  rcases h3 : verify_zk_proof e.verifier_program e.verifier_cpi e.proof e.public_inputs with er | u
  · rw [h3] at hweq
    dsimp only at hweq
    injection hweq with hT hR
    subst hT
    subst hR
    simp [withdraw_step_order, Except.isOk, Except.toBool]
  rw [h3] at hweq
  dsimp only at hweq
  rcases h4 : parse_field e.public_inputs 0 with er | root_bytes
  · rw [h4] at hweq
    dsimp only at hweq
    injection hweq with hT hR
    subst hT
    subst hR
    simp [withdraw_step_order, Except.isOk, Except.toBool]
  rw [h4] at hweq
  dsimp only at hweq
  rcases h5 : parse_field e.public_inputs 1 with er | nullifier_hash_bytes
  · rw [h5] at hweq
    dsimp only at hweq
    injection hweq with hT hR
    subst hT
    subst hR
    simp [withdraw_step_order, Except.isOk, Except.toBool]
  rw [h5] at hweq
  dsimp only at hweq
  rcases h6 : parse_field e.public_inputs 2 with er | amount_field
  · rw [h6] at hweq
    dsimp only at hweq
    injection hweq with hT hR
    subst hT
    subst hR
    simp [withdraw_step_order, Except.isOk, Except.toBool]
  rw [h6] at hweq
  dsimp only at hweq
  rcases h7 : parse_field e.public_inputs 3 with er | recipient_field
  · rw [h7] at hweq
    dsimp only at hweq
    injection hweq with hT hR
    subst hT
    subst hR
    simp [withdraw_step_order, Except.isOk, Except.toBool]
  rw [h7] at hweq
  dsimp only at hweq
  rcases h8 : parse_field e.public_inputs 4 with er | mint_field
  · rw [h8] at hweq
    dsimp only at hweq
    injection hweq with hT hR
    subst hT
    subst hR
    simp [withdraw_step_order, Except.isOk, Except.toBool]
  rw [h8] at hweq
  dsimp only at hweq
  rcases h9 : parse_field e.public_inputs 5 with er | pool_field
  · rw [h9] at hweq
    dsimp only at hweq
    injection hweq with hT hR
    subst hT
    subst hR
    simp [withdraw_step_order, Except.isOk, Except.toBool]
  rw [h9] at hweq
  dsimp only at hweq
  by_cases h10 : e.vault_key ≠ e.shielded_pool.vault
  · rw [if_pos h10] at hweq
    injection hweq with hT hR
    subst hT
    subst hR
    simp [withdraw_step_order, Except.isOk, Except.toBool]
  rw [if_neg h10] at hweq
  rcases h11 : parse_token_account e.vault_account with er | vault_acc
  · rw [h11] at hweq
    dsimp only at hweq
    injection hweq with hT hR
    subst hT
    subst hR
    simp [withdraw_step_order, Except.isOk, Except.toBool]
  rw [h11] at hweq
  dsimp only at hweq
  rcases h12 : parse_token_account e.recipient_account with er | recipient_acc
  · rw [h12] at hweq
    dsimp only at hweq
    injection hweq with hT hR
    subst hT
    subst hR
    simp [withdraw_step_order, Except.isOk, Except.toBool]
  rw [h12] at hweq
  dsimp only at hweq
  by_cases h13 : vault_acc.mint ≠ e.shielded_pool.mint
  · rw [if_pos h13] at hweq
    injection hweq with hT hR
    subst hT
    subst hR
    simp [withdraw_step_order, Except.isOk, Except.toBool]
  rw [if_neg h13] at hweq
  by_cases h14 : recipient_acc.mint ≠ e.shielded_pool.mint
  · rw [if_pos h14] at hweq
    injection hweq with hT hR
    subst hT
    subst hR
    simp [withdraw_step_order, Except.isOk, Except.toBool]
  rw [if_neg h14] at hweq
  by_cases h15 : e.shielded_pool.root_history ≠ e.root_history_key
  · rw [if_pos h15] at hweq
    injection hweq with hT hR
    subst hT
    subst hR
    simp [withdraw_step_order, Except.isOk, Except.toBool]
  rw [if_neg h15] at hweq
  by_cases h16 : e.root_history.pool ≠ e.shielded_pool_key
  · rw [if_pos h16] at hweq
    injection hweq with hT hR
    subst hT
    subst hR
    simp [withdraw_step_order, Except.isOk, Except.toBool]
  rw [if_neg h16] at hweq
  by_cases h17 : ¬e.root_history.contains_root root_bytes = true
  · rw [if_pos h17] at hweq
    injection hweq with hT hR
    subst hT
    subst hR
    simp [withdraw_step_order, Except.isOk, Except.toBool]
  rw [if_neg h17] at hweq
  by_cases h18 : nullifier_hash_bytes ≠ e.nullifier_hash
  · rw [if_pos h18] at hweq
    injection hweq with hT hR
    subst hT
    subst hR
    simp [withdraw_step_order, Except.isOk, Except.toBool]
  rw [if_neg h18] at hweq
  rcases h19 : field_to_u64 amount_field with er | proof_amount
  · rw [h19] at hweq
    dsimp only at hweq
    injection hweq with hT hR
    subst hT
    subst hR
    simp [withdraw_step_order, Except.isOk, Except.toBool]
  rw [h19] at hweq
  dsimp only at hweq
  by_cases h20 : proof_amount ≠ e.amount
  · rw [if_pos h20] at hweq
    injection hweq with hT hR
    subst hT
    subst hR
    simp [withdraw_step_order, Except.isOk, Except.toBool]
  rw [if_neg h20] at hweq
  by_cases h21 : recipient_field ≠ pubkey_to_field_bytes e.recipient_key
  · rw [if_pos h21] at hweq
    injection hweq with hT hR
    subst hT
    subst hR
    simp [withdraw_step_order, Except.isOk, Except.toBool]
  rw [if_neg h21] at hweq
  by_cases h22 : mint_field ≠ pubkey_to_field_bytes e.shielded_pool.mint
  · rw [if_pos h22] at hweq
    injection hweq with hT hR
    subst hT
    subst hR
    simp [withdraw_step_order, Except.isOk, Except.toBool]
  rw [if_neg h22] at hweq
  by_cases h23 : pool_field ≠ pubkey_to_field_bytes e.shielded_pool_key
  · rw [if_pos h23] at hweq
    injection hweq with hT hR
    subst hT
    subst hR
    simp [withdraw_step_order, Except.isOk, Except.toBool]
  rw [if_neg h23] at hweq
  by_cases h24 : ¬e.transfer_ok = true
  · rw [if_pos h24] at hweq
    injection hweq with hT hR
    subst hT
    subst hR
    simp [withdraw_step_order, Except.isOk, Except.toBool]
  rw [if_neg h24] at hweq
  rcases h25 : ensure_nullifier_account e.nullifiers e.shielded_pool_key e.nullifier_hash with er | st'
  · rw [h25] at hweq
    dsimp only at hweq
    injection hweq with hT hR
    subst hT
    subst hR
    simp [withdraw_step_order, Except.isOk, Except.toBool]
  rw [h25] at hweq
  dsimp only at hweq
  injection hweq with hT hR
  subst hT
  subst hR
  simp [withdraw_step_order, Except.isOk, Except.toBool]

/-- Exhaustive shape of a private swap call's trace/result pair. -/
theorem swap_trace_cases (e : SwapEnv) :
    ((swap_private e).1 = swap_step_order.take 1
        ∧ (swap_private e).2.isOk = false) ∨
    ((swap_private e).1 = swap_step_order.take 2
        ∧ (swap_private e).2.isOk = false) ∨
    ((swap_private e).1 = swap_step_order.take 3
        ∧ (swap_private e).2.isOk = false) ∨
    ((swap_private e).1 = swap_step_order.take 4
        ∧ (swap_private e).2.isOk = false) ∨
    ((swap_private e).1 = swap_step_order.take 5
        ∧ (swap_private e).2.isOk = false) ∨
    ((swap_private e).1 = swap_step_order
        ∧ (swap_private e).2.isOk = true) := by
  rcases hweq : swap_private e with ⟨t, r⟩
  unfold swap_private at hweq
  dsimp only at hweq
  by_cases h1 : e.public_inputs.length < PUBLIC_INPUTS_LEN * 32
  · rw [if_pos h1] at hweq
    injection hweq with hT hR
    subst hT
    subst hR
    simp [swap_step_order, Except.isOk, Except.toBool]
  rw [if_neg h1] at hweq
  by_cases h2 : e.remaining_accounts < 4
  · rw [if_pos h2] at hweq
    injection hweq with hT hR
    subst hT
    subst hR
    simp [swap_step_order, Except.isOk, Except.toBool]
  rw [if_neg h2] at hweq
  rcases h3 : verify_zk_proof e.verifier_program e.verifier_cpi e.proof e.public_inputs with er | u
  · rw [h3] at hweq
    dsimp only at hweq
    injection hweq with hT hR
    subst hT
    subst hR
    simp [swap_step_order, Except.isOk, Except.toBool]
  rw [h3] at hweq
  dsimp only at hweq
  rcases h4 : parse_field e.public_inputs 0 with er | root_bytes
  · rw [h4] at hweq
    dsimp only at hweq
    injection hweq with hT hR
    subst hT
    subst hR
    simp [swap_step_order, Except.isOk, Except.toBool]
  rw [h4] at hweq
  dsimp only at hweq
  rcases h5 : parse_field e.public_inputs 1 with er | nullifier_hash_bytes
  · rw [h5] at hweq
    dsimp only at hweq
    injection hweq with hT hR
    subst hT
    subst hR
    simp [swap_step_order, Except.isOk, Except.toBool]
  rw [h5] at hweq
  dsimp only at hweq
  rcases h6 : parse_field e.public_inputs 2 with er | amount_field
  · rw [h6] at hweq
    dsimp only at hweq
    injection hweq with hT hR
    subst hT
    subst hR
    simp [swap_step_order, Except.isOk, Except.toBool]
  rw [h6] at hweq
  dsimp only at hweq
  rcases h7 : parse_field e.public_inputs 3 with er | recipient_field
  · rw [h7] at hweq
    dsimp only at hweq
    injection hweq with hT hR
    subst hT
    subst hR
    simp [swap_step_order, Except.isOk, Except.toBool]
  rw [h7] at hweq
  dsimp only at hweq
  rcases h8 : parse_field e.public_inputs 4 with er | mint_field
  · rw [h8] at hweq
    dsimp only at hweq
    injection hweq with hT hR
    subst hT
    subst hR
    simp [swap_step_order, Except.isOk, Except.toBool]
  rw [h8] at hweq
  dsimp only at hweq
  rcases h9 : parse_field e.public_inputs 5 with er | pool_field
  · rw [h9] at hweq
    dsimp only at hweq
    injection hweq with hT hR
    subst hT
    subst hR
    simp [swap_step_order, Except.isOk, Except.toBool]
  rw [h9] at hweq
  dsimp only at hweq
  by_cases h10 : pool_field ≠ pubkey_to_field_bytes e.input_shielded_pool_key
  · rw [if_pos h10] at hweq
    injection hweq with hT hR
    subst hT
    subst hR
    simp [swap_step_order, Except.isOk, Except.toBool]
  rw [if_neg h10] at hweq
  rcases h11 : field_to_u64 amount_field with er | proof_amount
  · rw [h11] at hweq
    dsimp only at hweq
    injection hweq with hT hR
    subst hT
    subst hR
    simp [swap_step_order, Except.isOk, Except.toBool]
  rw [h11] at hweq
  dsimp only at hweq
  by_cases h12 : proof_amount ≠ e.amount_in
  · rw [if_pos h12] at hweq
    injection hweq with hT hR
    subst hT
    subst hR
    simp [swap_step_order, Except.isOk, Except.toBool]
  rw [if_neg h12] at hweq
  by_cases h13 : nullifier_hash_bytes ≠ e.nullifier_hash
  · rw [if_pos h13] at hweq
    injection hweq with hT hR
    subst hT
    subst hR
    simp [swap_step_order, Except.isOk, Except.toBool]
  rw [if_neg h13] at hweq
  by_cases h14 : recipient_field ≠ pubkey_to_field_bytes e.recipient_key
  · rw [if_pos h14] at hweq
    injection hweq with hT hR
    subst hT
    subst hR
    simp [swap_step_order, Except.isOk, Except.toBool]
  rw [if_neg h14] at hweq
  cases hab : e.is_a_to_b
  · rw [hab] at hweq
    dsimp only at hweq
    by_cases h15 : mint_field ≠ pubkey_to_field_bytes e.pool.token_b_mint
    · rw [if_pos h15] at hweq
      injection hweq with hT hR
      subst hT
      subst hR
      simp [swap_step_order, Except.isOk, Except.toBool]
    rw [if_neg h15] at hweq
    rcases h16 : parse_token_account e.reserve_in_account with er | reserve_in_acc
    · rw [h16] at hweq
      dsimp only at hweq
      injection hweq with hT hR
      subst hT
      subst hR
      simp [swap_step_order, Except.isOk, Except.toBool]
    rw [h16] at hweq
    dsimp only at hweq
    rcases h17 : parse_token_account e.reserve_out_account with er | reserve_out_acc
    · rw [h17] at hweq
      dsimp only at hweq
      injection hweq with hT hR
      subst hT
      subst hR
      simp [swap_step_order, Except.isOk, Except.toBool]
    rw [h17] at hweq
    dsimp only at hweq
    rcases h18 : parse_token_account e.recipient_account with er | recipient_acc
    · rw [h18] at hweq
      dsimp only at hweq
      injection hweq with hT hR
      subst hT
      subst hR
      simp [swap_step_order, Except.isOk, Except.toBool]
    rw [h18] at hweq
    dsimp only at hweq
    by_cases h19 : e.input_shielded_pool.mint ≠ e.pool.token_b_mint
    · rw [if_pos h19] at hweq
      injection hweq with hT hR
      subst hT
      subst hR
      simp [swap_step_order, Except.isOk, Except.toBool]
    rw [if_neg h19] at hweq
    by_cases h20 : e.shielded_vault_key ≠ e.input_shielded_pool.vault
    · rw [if_pos h20] at hweq
      injection hweq with hT hR
      subst hT
      subst hR
      simp [swap_step_order, Except.isOk, Except.toBool]
    rw [if_neg h20] at hweq
    rcases h21 : parse_token_account e.shielded_vault_account with er | shielded_vault_acc
    · rw [h21] at hweq
      dsimp only at hweq
      injection hweq with hT hR
      subst hT
      subst hR
      simp [swap_step_order, Except.isOk, Except.toBool]
    rw [h21] at hweq
    dsimp only at hweq
    by_cases h22 : shielded_vault_acc.mint ≠ e.input_shielded_pool.mint
    · rw [if_pos h22] at hweq
      injection hweq with hT hR
      subst hT
      subst hR
      simp [swap_step_order, Except.isOk, Except.toBool]
    rw [if_neg h22] at hweq
    by_cases h23 : recipient_acc.mint ≠ e.pool.token_a_mint
    · rw [if_pos h23] at hweq
      injection hweq with hT hR
      subst hT
      subst hR
      simp [swap_step_order, Except.isOk, Except.toBool]
    rw [if_neg h23] at hweq
    by_cases h24 : e.input_shielded_pool.root_history ≠ e.input_root_history_key
    · rw [if_pos h24] at hweq
      injection hweq with hT hR
      subst hT
      subst hR
      simp [swap_step_order, Except.isOk, Except.toBool]
    rw [if_neg h24] at hweq
    by_cases h25 : e.input_root_history.pool ≠ e.input_shielded_pool_key
    · rw [if_pos h25] at hweq
      injection hweq with hT hR
      subst hT
      subst hR
      simp [swap_step_order, Except.isOk, Except.toBool]
    rw [if_neg h25] at hweq
    by_cases h26 : reserve_in_acc.mint ≠ e.pool.token_b_mint
    · rw [if_pos h26] at hweq
      injection hweq with hT hR
      subst hT
      subst hR
      simp [swap_step_order, Except.isOk, Except.toBool]
    rw [if_neg h26] at hweq
    by_cases h27 : reserve_out_acc.mint ≠ e.pool.token_a_mint
    · rw [if_pos h27] at hweq
      injection hweq with hT hR
      subst hT
      subst hR
      simp [swap_step_order, Except.isOk, Except.toBool]
    rw [if_neg h27] at hweq
    by_cases h28 : ¬e.input_root_history.contains_root root_bytes = true
    · rw [if_pos h28] at hweq
      injection hweq with hT hR
      subst hT
      subst hR
      simp [swap_step_order, Except.isOk, Except.toBool]
    rw [if_neg h28] at hweq
    rcases h29 : ensure_nullifier_account e.nullifiers e.input_shielded_pool_key e.nullifier_hash with er | st'
    · rw [h29] at hweq
      dsimp only at hweq
      injection hweq with hT hR
      subst hT
      subst hR
      simp [swap_step_order, Except.isOk, Except.toBool]
    rw [h29] at hweq
    dsimp only at hweq
    by_cases h30 : ¬e.transfer_in_ok = true
    · rw [if_pos h30] at hweq
      injection hweq with hT hR
      subst hT
      subst hR
      simp [swap_step_order, Except.isOk, Except.toBool]
    rw [if_neg h30] at hweq
    rcases h31 : get_amount_out e.amount_in e.pool.token_b_reserve e.pool.token_a_reserve with er | amount_out
    · rw [h31] at hweq
      dsimp only at hweq
      injection hweq with hT hR
      subst hT
      subst hR
      simp [swap_step_order, Except.isOk, Except.toBool]
    rw [h31] at hweq
    dsimp only at hweq
    by_cases h32 : amount_out < e.min_out
    · rw [if_pos h32] at hweq
      injection hweq with hT hR
      subst hT
      subst hR
      simp [swap_step_order, Except.isOk, Except.toBool]
    rw [if_neg h32] at hweq
    by_cases h33 : ¬e.transfer_out_ok = true
    · rw [if_pos h33] at hweq
      injection hweq with hT hR
      subst hT
      subst hR
      simp [swap_step_order, Except.isOk, Except.toBool]
    rw [if_neg h33] at hweq
    by_cases h34 : U64 ≤ e.pool.token_b_reserve + e.amount_in
    · rw [if_pos h34] at hweq
      injection hweq with hT hR
      subst hT
      subst hR
      simp [swap_step_order, Except.isOk, Except.toBool]
    rw [if_neg h34] at hweq
    by_cases h35 : e.pool.token_a_reserve < amount_out
    · rw [if_pos h35] at hweq
      injection hweq with hT hR
      subst hT
      subst hR
      simp [swap_step_order, Except.isOk, Except.toBool]
    rw [if_neg h35] at hweq
    injection hweq with hT hR
    subst hT
    subst hR
    simp [swap_step_order, Except.isOk, Except.toBool]
  rw [hab] at hweq
  dsimp only at hweq
  by_cases h36 : mint_field ≠ pubkey_to_field_bytes e.pool.token_a_mint
  · rw [if_pos h36] at hweq
    injection hweq with hT hR
    subst hT
    subst hR
    simp [swap_step_order, Except.isOk, Except.toBool]
  rw [if_neg h36] at hweq
  rcases h37 : parse_token_account e.reserve_in_account with er | reserve_in_acc
  · rw [h37] at hweq
    dsimp only at hweq
    injection hweq with hT hR
    subst hT
    subst hR
    simp [swap_step_order, Except.isOk, Except.toBool]
  rw [h37] at hweq
  dsimp only at hweq
  rcases h38 : parse_token_account e.reserve_out_account with er | reserve_out_acc
  · rw [h38] at hweq
    dsimp only at hweq
    injection hweq with hT hR
    subst hT
    subst hR
    simp [swap_step_order, Except.isOk, Except.toBool]
  rw [h38] at hweq
  dsimp only at hweq
  rcases h39 : parse_token_account e.recipient_account with er | recipient_acc
  · rw [h39] at hweq
    dsimp only at hweq
    injection hweq with hT hR
    subst hT
    subst hR
    simp [swap_step_order, Except.isOk, Except.toBool]
  rw [h39] at hweq
  dsimp only at hweq
  by_cases h40 : e.input_shielded_pool.mint ≠ e.pool.token_a_mint
  · rw [if_pos h40] at hweq
    injection hweq with hT hR
    subst hT
    subst hR
    simp [swap_step_order, Except.isOk, Except.toBool]
  rw [if_neg h40] at hweq
  by_cases h41 : e.shielded_vault_key ≠ e.input_shielded_pool.vault
  · rw [if_pos h41] at hweq
    injection hweq with hT hR
    subst hT
    subst hR
    simp [swap_step_order, Except.isOk, Except.toBool]
  rw [if_neg h41] at hweq
  rcases h42 : parse_token_account e.shielded_vault_account with er | shielded_vault_acc
  · rw [h42] at hweq
    dsimp only at hweq
    injection hweq with hT hR
    subst hT
    subst hR
    simp [swap_step_order, Except.isOk, Except.toBool]
  rw [h42] at hweq
  dsimp only at hweq
  by_cases h43 : shielded_vault_acc.mint ≠ e.input_shielded_pool.mint
  · rw [if_pos h43] at hweq
    injection hweq with hT hR
    subst hT
    subst hR
    simp [swap_step_order, Except.isOk, Except.toBool]
  rw [if_neg h43] at hweq
  by_cases h44 : recipient_acc.mint ≠ e.pool.token_b_mint
  · rw [if_pos h44] at hweq
    injection hweq with hT hR
    subst hT
    subst hR
    simp [swap_step_order, Except.isOk, Except.toBool]
  rw [if_neg h44] at hweq
  by_cases h45 : e.input_shielded_pool.root_history ≠ e.input_root_history_key
  · rw [if_pos h45] at hweq
    injection hweq with hT hR
    subst hT
    subst hR
    simp [swap_step_order, Except.isOk, Except.toBool]
  rw [if_neg h45] at hweq
  by_cases h46 : e.input_root_history.pool ≠ e.input_shielded_pool_key
  · rw [if_pos h46] at hweq
    injection hweq with hT hR
    subst hT
    subst hR
    simp [swap_step_order, Except.isOk, Except.toBool]
  rw [if_neg h46] at hweq
  by_cases h47 : reserve_in_acc.mint ≠ e.pool.token_a_mint
  · rw [if_pos h47] at hweq
    injection hweq with hT hR
    subst hT
    subst hR
    simp [swap_step_order, Except.isOk, Except.toBool]
  rw [if_neg h47] at hweq
  by_cases h48 : reserve_out_acc.mint ≠ e.pool.token_b_mint
  · rw [if_pos h48] at hweq
    injection hweq with hT hR
    subst hT
    subst hR
    simp [swap_step_order, Except.isOk, Except.toBool]
  rw [if_neg h48] at hweq
  by_cases h49 : ¬e.input_root_history.contains_root root_bytes = true
  · rw [if_pos h49] at hweq
    injection hweq with hT hR
    subst hT
    subst hR
    simp [swap_step_order, Except.isOk, Except.toBool]
  rw [if_neg h49] at hweq
  rcases h50 : ensure_nullifier_account e.nullifiers e.input_shielded_pool_key e.nullifier_hash with er | st'
  · rw [h50] at hweq
    dsimp only at hweq
    injection hweq with hT hR
    subst hT
    subst hR
    simp [swap_step_order, Except.isOk, Except.toBool]
  rw [h50] at hweq
  dsimp only at hweq
  by_cases h51 : ¬e.transfer_in_ok = true
  · rw [if_pos h51] at hweq
    injection hweq with hT hR
    subst hT
    subst hR
    simp [swap_step_order, Except.isOk, Except.toBool]
  rw [if_neg h51] at hweq
  rcases h52 : get_amount_out e.amount_in e.pool.token_a_reserve e.pool.token_b_reserve with er | amount_out
  · rw [h52] at hweq
    dsimp only at hweq
    injection hweq with hT hR
    subst hT
    subst hR
    simp [swap_step_order, Except.isOk, Except.toBool]
  rw [h52] at hweq
  dsimp only at hweq
  by_cases h53 : amount_out < e.min_out
  · rw [if_pos h53] at hweq
    injection hweq with hT hR
    subst hT
    subst hR
    simp [swap_step_order, Except.isOk, Except.toBool]
  rw [if_neg h53] at hweq
  by_cases h54 : ¬e.transfer_out_ok = true
  · rw [if_pos h54] at hweq
    injection hweq with hT hR
    subst hT
    subst hR
    simp [swap_step_order, Except.isOk, Except.toBool]
  rw [if_neg h54] at hweq
  by_cases h55 : U64 ≤ e.pool.token_a_reserve + e.amount_in
  · rw [if_pos h55] at hweq
    injection hweq with hT hR
    subst hT
    subst hR
    simp [swap_step_order, Except.isOk, Except.toBool]
  rw [if_neg h55] at hweq
  by_cases h56 : e.pool.token_b_reserve < amount_out
  · rw [if_pos h56] at hweq
    injection hweq with hT hR
    subst hT
    subst hR
    simp [swap_step_order, Except.isOk, Except.toBool]
  rw [if_neg h56] at hweq
  injection hweq with hT hR
  subst hT
  subst hR
  simp [swap_step_order, Except.isOk, Except.toBool]

/-- Claim C8 (amended): every withdraw call's completed steps follow, in
order, `Start, ProofVerified, RootChecked, AssetMoved, NullifierConsumed,
Done` — the asset transfer is instructed before the nullifier is consumed —
and every private-swap call's follow `Start, ProofVerified, RootChecked,
NullifierConsumed, AssetMoved, Done`; in both, a failed step aborts the call
(the trace stops at the failing step and no updated state is returned), and
a successful call completes exactly the full sequence. -/
theorem c8_step_order :
    (∀ e : WithdrawEnv,
      (∃ k, (withdraw_shielded e).1 = withdraw_step_order.take k) ∧
      ∀ st' : NullifierStore, (withdraw_shielded e).2 = .ok st' →
        (withdraw_shielded e).1 = withdraw_step_order) ∧
    (∀ e : SwapEnv,
      (∃ k, (swap_private e).1 = swap_step_order.take k) ∧
      ∀ r : NullifierStore × Pool, (swap_private e).2 = .ok r →
        (swap_private e).1 = swap_step_order) := by
  constructor
  · intro e
    constructor
    · rcases withdraw_trace_cases e with ⟨h, _⟩ | ⟨h, _⟩ | ⟨h, _⟩ | ⟨h, _⟩ | ⟨h, _⟩
      · exact ⟨1, h⟩
      · exact ⟨2, h⟩
      · exact ⟨3, h⟩
      · exact ⟨4, h⟩
      · exact ⟨6, by rw [h]; rfl⟩
    · intro st' hok
      have hb : (withdraw_shielded e).2.isOk = true := by rw [hok]; rfl
      rcases withdraw_trace_cases e with ⟨h, hf⟩ | ⟨h, hf⟩ | ⟨h, hf⟩ | ⟨h, hf⟩ | ⟨h, _⟩ <;>
        first
          | exact absurd hb (by rw [hf]; simp)
          | exact h
  · intro e
    constructor
    · rcases swap_trace_cases e with
        ⟨h, _⟩ | ⟨h, _⟩ | ⟨h, _⟩ | ⟨h, _⟩ | ⟨h, _⟩ | ⟨h, _⟩
      · exact ⟨1, h⟩
      · exact ⟨2, h⟩
      · exact ⟨3, h⟩
      · exact ⟨4, h⟩
      · exact ⟨5, h⟩
      · exact ⟨6, by rw [h]; rfl⟩
    · intro r hok
      have hb : (swap_private e).2.isOk = true := by rw [hok]; rfl
      rcases swap_trace_cases e with
          ⟨h, hf⟩ | ⟨h, hf⟩ | ⟨h, hf⟩ | ⟨h, hf⟩ | ⟨h, hf⟩ | ⟨h, _⟩ <;>
        first
          | exact absurd hb (by rw [hf]; simp)
          | exact h

set_option maxRecDepth 8000 in
/-- Witness for `c8_step_order`: the success-trace parts applied to the two
concrete fully valid calls. -/
theorem c8_step_order_witness :
    (withdraw_shielded example_withdraw_env).1 = withdraw_step_order ∧
    (swap_private example_swap_env).1 = swap_step_order :=
  ⟨((c8_step_order.1 example_withdraw_env).2 _ rfl),
   ((c8_step_order.2 example_swap_env).2 _ rfl)⟩

/-- `parse_field` can only fail with `InvalidProof`. -/
theorem parse_field_error_inv (pi : List Nat) (i : Nat) (er : Err)
    (h : parse_field pi i = .error er) : er = .invalidProof := by
  unfold parse_field at h
  dsimp only at h
  split at h
  · split at h
    · exact (Except.error.inj h).symm
    · cases h
  · split at h
    · exact (Except.error.inj h).symm
    · cases h

/-- `verify_zk_proof` can only fail with `InvalidVerifier` or `InvalidProof`. -/
theorem verify_error_inv (vp : Word) (cpi : List Nat → Bool)
    (proof pi : List Nat) (er : Err)
    (h : verify_zk_proof vp cpi proof pi = .error er) :
    er = .invalidVerifier ∨ er = .invalidProof := by
  unfold verify_zk_proof at h
  split at h
  · exact Or.inl (Except.error.inj h).symm
  · split at h
    · cases h
    · exact Or.inr (Except.error.inj h).symm

/-- `parse_token_account` can only fail with `InvalidShieldedAccount`. -/
theorem parse_token_account_error_inv (acc : Option TokenAccount) (er : Err)
    (h : parse_token_account acc = .error er) : er = .invalidShieldedAccount := by
  unfold parse_token_account at h
  split at h
  · cases h
  · exact (Except.error.inj h).symm

/-- `ensure_nullifier_account` can only fail with `InvalidProof`,
`AccountDiscriminatorMismatch`, `NullifierAlreadySpent`,
`AccountDidNotDeserialize` or `InvalidShieldedAccount`. -/
theorem ensure_error_inv (st : NullifierStore) (pool h' : Word) (er : Err)
    (h : ensure_nullifier_account st pool h' = .error er) :
    er = .invalidProof ∨ er = .accountDiscriminatorMismatch ∨
      er = .nullifierAlreadySpent ∨ er = .accountDidNotDeserialize ∨
      er = .invalidShieldedAccount := by
  unfold ensure_nullifier_account at h
  split at h
  · split at h
    · exact Or.inl (Except.error.inj h).symm
    · split at h
      · exact Or.inr (Or.inl (Except.error.inj h).symm)
      · split at h
        · cases h
        · split at h
          · exact Or.inr (Or.inr (Or.inl (Except.error.inj h).symm))
          · exact Or.inr (Or.inr (Or.inr (Or.inl (Except.error.inj h).symm)))
  · exact Or.inr (Or.inr (Or.inr (Or.inr (Except.error.inj h).symm)))
  · cases h

/-- `get_amount_out` can only fail with `ZeroAmount`,
`InsufficientLiquidity` or `MathOverflow`. -/
theorem get_amount_out_error_inv (a rin rout : Nat) (er : Err)
    (h : get_amount_out a rin rout = .error er) :
    er = .zeroAmount ∨ er = .insufficientLiquidity ∨ er = .mathOverflow := by
  unfold get_amount_out at h
  dsimp only at h
  split at h
  · exact Or.inl (Except.error.inj h).symm
  · split at h
    · exact Or.inr (Or.inl (Except.error.inj h).symm)
    · split at h
      · exact Or.inr (Or.inr (Except.error.inj h).symm)
      · split at h
        · exact Or.inr (Or.inr (Except.error.inj h).symm)
        · split at h
          · exact Or.inr (Or.inr (Except.error.inj h).symm)
          · split at h
            · exact Or.inr (Or.inr (Except.error.inj h).symm)
            · split at h
              · exact Or.inr (Or.inr (Except.error.inj h).symm)
              · cases h

/-- The only source of `InvalidStateRoot` in a withdraw call is the
root-freshness check on the proof's root field. -/
theorem withdraw_isr_inv (e : WithdrawEnv)
    (h : (withdraw_shielded e).2 = .error .invalidStateRoot) :
    ∃ root_bytes, parse_field e.public_inputs 0 = .ok root_bytes ∧
      e.root_history.contains_root root_bytes = false := by
  rcases hweq : withdraw_shielded e with ⟨t, r⟩
  rw [hweq] at h
  dsimp only at h
  unfold withdraw_shielded at hweq
  dsimp only at hweq
  by_cases h1 : e.public_inputs.length < PUBLIC_INPUTS_LEN * 32
  · rw [if_pos h1] at hweq
    injection hweq with hT hR
    rw [← hR] at h
    simp at h
  rw [if_neg h1] at hweq
  by_cases h2 : e.remaining_accounts < 2
  · rw [if_pos h2] at hweq
    injection hweq with hT hR
    rw [← hR] at h
    simp at h
  rw [if_neg h2] at hweq
  rcases h3 : verify_zk_proof e.verifier_program e.verifier_cpi e.proof e.public_inputs with er | u
  · rw [h3] at hweq
    dsimp only at hweq
    injection hweq with hT hR
    rw [← hR] at h
    have he := Except.error.inj h
    subst he
    have hcontra := verify_error_inv _ _ _ _ _ h3
    simp at hcontra
  rw [h3] at hweq
  dsimp only at hweq
  rcases h4 : parse_field e.public_inputs 0 with er | root_bytes
  · rw [h4] at hweq
    dsimp only at hweq
    injection hweq with hT hR
    rw [← hR] at h
    have he := Except.error.inj h
    subst he
    have hcontra := parse_field_error_inv _ _ _ h4
    simp at hcontra
  rw [h4] at hweq
  dsimp only at hweq
  rcases h5 : parse_field e.public_inputs 1 with er | nullifier_hash_bytes
  · rw [h5] at hweq
    dsimp only at hweq
    injection hweq with hT hR
    rw [← hR] at h
    have he := Except.error.inj h
    subst he
    have hcontra := parse_field_error_inv _ _ _ h5
    simp at hcontra
  rw [h5] at hweq
  dsimp only at hweq
  rcases h6 : parse_field e.public_inputs 2 with er | amount_field
  · rw [h6] at hweq
    dsimp only at hweq
    injection hweq with hT hR
    rw [← hR] at h
    have he := Except.error.inj h
    subst he
    have hcontra := parse_field_error_inv _ _ _ h6
    simp at hcontra
  rw [h6] at hweq
  dsimp only at hweq
  rcases h7 : parse_field e.public_inputs 3 with er | recipient_field
  · rw [h7] at hweq
    dsimp only at hweq
    injection hweq with hT hR
    rw [← hR] at h
    have he := Except.error.inj h
    subst he
    have hcontra := parse_field_error_inv _ _ _ h7
    simp at hcontra
  rw [h7] at hweq
  dsimp only at hweq
  rcases h8 : parse_field e.public_inputs 4 with er | mint_field
  · rw [h8] at hweq
    dsimp only at hweq
    injection hweq with hT hR
    rw [← hR] at h
    have he := Except.error.inj h
    subst he
    have hcontra := parse_field_error_inv _ _ _ h8
    simp at hcontra
  rw [h8] at hweq
  dsimp only at hweq
  rcases h9 : parse_field e.public_inputs 5 with er | pool_field
  · rw [h9] at hweq
    dsimp only at hweq
    injection hweq with hT hR
    rw [← hR] at h
    have he := Except.error.inj h
    subst he
    have hcontra := parse_field_error_inv _ _ _ h9
    simp at hcontra
  rw [h9] at hweq
  dsimp only at hweq
  by_cases h10 : e.vault_key ≠ e.shielded_pool.vault
  · rw [if_pos h10] at hweq
    injection hweq with hT hR
    rw [← hR] at h
    simp at h
  rw [if_neg h10] at hweq
  rcases h11 : parse_token_account e.vault_account with er | vault_acc
  · rw [h11] at hweq
    dsimp only at hweq
    injection hweq with hT hR
    rw [← hR] at h
    have he := Except.error.inj h
    subst he
    have hcontra := parse_token_account_error_inv _ _ h11
    simp at hcontra
  rw [h11] at hweq
  dsimp only at hweq
  rcases h12 : parse_token_account e.recipient_account with er | recipient_acc
  · rw [h12] at hweq
    dsimp only at hweq
    injection hweq with hT hR
    rw [← hR] at h
    have he := Except.error.inj h
    subst he
    have hcontra := parse_token_account_error_inv _ _ h12
    simp at hcontra
  rw [h12] at hweq
  dsimp only at hweq
  by_cases h13 : vault_acc.mint ≠ e.shielded_pool.mint
  · rw [if_pos h13] at hweq
    injection hweq with hT hR
    rw [← hR] at h
    simp at h
  rw [if_neg h13] at hweq
  by_cases h14 : recipient_acc.mint ≠ e.shielded_pool.mint
  · rw [if_pos h14] at hweq
    injection hweq with hT hR
    rw [← hR] at h
    simp at h
  rw [if_neg h14] at hweq
  by_cases h15 : e.shielded_pool.root_history ≠ e.root_history_key
  · rw [if_pos h15] at hweq
    injection hweq with hT hR
    rw [← hR] at h
    simp at h
  rw [if_neg h15] at hweq
  by_cases h16 : e.root_history.pool ≠ e.shielded_pool_key
  · rw [if_pos h16] at hweq
    injection hweq with hT hR
    rw [← hR] at h
    simp at h
  rw [if_neg h16] at hweq
  by_cases h17 : ¬e.root_history.contains_root root_bytes = true
  · exact ⟨root_bytes, rfl, by simpa using h17⟩
  rw [if_neg h17] at hweq
  by_cases h18 : nullifier_hash_bytes ≠ e.nullifier_hash
  · rw [if_pos h18] at hweq
    injection hweq with hT hR
    rw [← hR] at h
    simp at h
  rw [if_neg h18] at hweq
  rcases h19 : field_to_u64 amount_field with er | proof_amount
  · rw [h19] at hweq
    dsimp only at hweq
    injection hweq with hT hR
    rw [← hR] at h
    have he := Except.error.inj h
    subst he
    have hcontra := field_to_u64_error_inv _ _ h19
    simp at hcontra
  rw [h19] at hweq
  dsimp only at hweq
  by_cases h20 : proof_amount ≠ e.amount
  · rw [if_pos h20] at hweq
    injection hweq with hT hR
    rw [← hR] at h
    simp at h
  rw [if_neg h20] at hweq
  by_cases h21 : recipient_field ≠ pubkey_to_field_bytes e.recipient_key
  · rw [if_pos h21] at hweq
    injection hweq with hT hR
    rw [← hR] at h
    simp at h
  rw [if_neg h21] at hweq
  by_cases h22 : mint_field ≠ pubkey_to_field_bytes e.shielded_pool.mint
  · rw [if_pos h22] at hweq
    injection hweq with hT hR
    rw [← hR] at h
    simp at h
  rw [if_neg h22] at hweq
  by_cases h23 : pool_field ≠ pubkey_to_field_bytes e.shielded_pool_key
  · rw [if_pos h23] at hweq
    injection hweq with hT hR
    rw [← hR] at h
    simp at h
  rw [if_neg h23] at hweq
  by_cases h24 : ¬e.transfer_ok = true
  · rw [if_pos h24] at hweq
    injection hweq with hT hR
    rw [← hR] at h
    simp at h
  rw [if_neg h24] at hweq
  rcases h25 : ensure_nullifier_account e.nullifiers e.shielded_pool_key e.nullifier_hash with er | st'
  · rw [h25] at hweq
    dsimp only at hweq
    injection hweq with hT hR
    rw [← hR] at h
    have he := Except.error.inj h
    subst he
    have hcontra := ensure_error_inv _ _ _ _ h25
    simp at hcontra
  rw [h25] at hweq
  dsimp only at hweq
  injection hweq with hT hR
  rw [← hR] at h
  simp at h

/-- The only source of `InvalidStateRoot` in a private swap is the
root-freshness check on the proof's root field. -/
theorem swap_isr_inv (e : SwapEnv)
    (h : (swap_private e).2 = .error .invalidStateRoot) :
    ∃ root_bytes, parse_field e.public_inputs 0 = .ok root_bytes ∧
      e.input_root_history.contains_root root_bytes = false := by
  rcases hweq : swap_private e with ⟨t, r⟩
  rw [hweq] at h
  dsimp only at h
  unfold swap_private at hweq
  dsimp only at hweq
  by_cases h1 : e.public_inputs.length < PUBLIC_INPUTS_LEN * 32
  · rw [if_pos h1] at hweq
    injection hweq with hT hR
    rw [← hR] at h
    simp at h
  rw [if_neg h1] at hweq
  by_cases h2 : e.remaining_accounts < 4
  · rw [if_pos h2] at hweq
    injection hweq with hT hR
    rw [← hR] at h
    simp at h
  rw [if_neg h2] at hweq
  rcases h3 : verify_zk_proof e.verifier_program e.verifier_cpi e.proof e.public_inputs with er | u
  · rw [h3] at hweq
    dsimp only at hweq
    injection hweq with hT hR
    rw [← hR] at h
    have he := Except.error.inj h
    subst he
    have hcontra := verify_error_inv _ _ _ _ _ h3
    simp at hcontra
  rw [h3] at hweq
  dsimp only at hweq
  rcases h4 : parse_field e.public_inputs 0 with er | root_bytes
  · rw [h4] at hweq
    dsimp only at hweq
    injection hweq with hT hR
    rw [← hR] at h
    have he := Except.error.inj h
    subst he
    have hcontra := parse_field_error_inv _ _ _ h4
    simp at hcontra
  rw [h4] at hweq
  dsimp only at hweq
  rcases h5 : parse_field e.public_inputs 1 with er | nullifier_hash_bytes
  · rw [h5] at hweq
    dsimp only at hweq
    injection hweq with hT hR
    rw [← hR] at h
    have he := Except.error.inj h
    subst he
    have hcontra := parse_field_error_inv _ _ _ h5
    simp at hcontra
  rw [h5] at hweq
  dsimp only at hweq
  rcases h6 : parse_field e.public_inputs 2 with er | amount_field
  · rw [h6] at hweq
    dsimp only at hweq
    injection hweq with hT hR
    rw [← hR] at h
    have he := Except.error.inj h
    subst he
    have hcontra := parse_field_error_inv _ _ _ h6
    simp at hcontra
  rw [h6] at hweq
  dsimp only at hweq
  rcases h7 : parse_field e.public_inputs 3 with er | recipient_field
  · rw [h7] at hweq
    dsimp only at hweq
    injection hweq with hT hR
    rw [← hR] at h
    have he := Except.error.inj h
    subst he
    have hcontra := parse_field_error_inv _ _ _ h7
    simp at hcontra
  rw [h7] at hweq
  dsimp only at hweq
  rcases h8 : parse_field e.public_inputs 4 with er | mint_field
  · rw [h8] at hweq
    dsimp only at hweq
    injection hweq with hT hR
    rw [← hR] at h
    have he := Except.error.inj h
    subst he
    have hcontra := parse_field_error_inv _ _ _ h8
    simp at hcontra
  rw [h8] at hweq
  dsimp only at hweq
  rcases h9 : parse_field e.public_inputs 5 with er | pool_field
  · rw [h9] at hweq
    dsimp only at hweq
    injection hweq with hT hR
    rw [← hR] at h
    have he := Except.error.inj h
    subst he
    have hcontra := parse_field_error_inv _ _ _ h9
    simp at hcontra
  rw [h9] at hweq
  dsimp only at hweq
  by_cases h10 : pool_field ≠ pubkey_to_field_bytes e.input_shielded_pool_key
  · rw [if_pos h10] at hweq
    injection hweq with hT hR
    rw [← hR] at h
    simp at h
  rw [if_neg h10] at hweq
  rcases h11 : field_to_u64 amount_field with er | proof_amount
  · rw [h11] at hweq
    dsimp only at hweq
    injection hweq with hT hR
    rw [← hR] at h
    have he := Except.error.inj h
    subst he
    have hcontra := field_to_u64_error_inv _ _ h11
    simp at hcontra
  rw [h11] at hweq
  dsimp only at hweq
  by_cases h12 : proof_amount ≠ e.amount_in
  · rw [if_pos h12] at hweq
    injection hweq with hT hR
    rw [← hR] at h
    simp at h
  rw [if_neg h12] at hweq
  by_cases h13 : nullifier_hash_bytes ≠ e.nullifier_hash
  · rw [if_pos h13] at hweq
    injection hweq with hT hR
    rw [← hR] at h
    simp at h
  rw [if_neg h13] at hweq
  by_cases h14 : recipient_field ≠ pubkey_to_field_bytes e.recipient_key
  · rw [if_pos h14] at hweq
    injection hweq with hT hR
    rw [← hR] at h
    simp at h
  rw [if_neg h14] at hweq
  cases hab : e.is_a_to_b
  · rw [hab] at hweq
    dsimp only at hweq
    by_cases h15 : mint_field ≠ pubkey_to_field_bytes e.pool.token_b_mint
    · rw [if_pos h15] at hweq
      injection hweq with hT hR
      rw [← hR] at h
      simp at h
    rw [if_neg h15] at hweq
    rcases h16 : parse_token_account e.reserve_in_account with er | reserve_in_acc
    · rw [h16] at hweq
      dsimp only at hweq
      injection hweq with hT hR
      rw [← hR] at h
      have he := Except.error.inj h
      subst he
      have hcontra := parse_token_account_error_inv _ _ h16
      simp at hcontra
    rw [h16] at hweq
    dsimp only at hweq
    rcases h17 : parse_token_account e.reserve_out_account with er | reserve_out_acc
    · rw [h17] at hweq
      dsimp only at hweq
      injection hweq with hT hR
      rw [← hR] at h
      have he := Except.error.inj h
      subst he
      have hcontra := parse_token_account_error_inv _ _ h17
      simp at hcontra
    rw [h17] at hweq
    dsimp only at hweq
    rcases h18 : parse_token_account e.recipient_account with er | recipient_acc
    · rw [h18] at hweq
      dsimp only at hweq
      injection hweq with hT hR
      rw [← hR] at h
      have he := Except.error.inj h
      subst he
      have hcontra := parse_token_account_error_inv _ _ h18
      simp at hcontra
    rw [h18] at hweq
    dsimp only at hweq
    by_cases h19 : e.input_shielded_pool.mint ≠ e.pool.token_b_mint
    · rw [if_pos h19] at hweq
      injection hweq with hT hR
      rw [← hR] at h
      simp at h
    rw [if_neg h19] at hweq
    by_cases h20 : e.shielded_vault_key ≠ e.input_shielded_pool.vault
    · rw [if_pos h20] at hweq
      injection hweq with hT hR
      rw [← hR] at h
      simp at h
    rw [if_neg h20] at hweq
    rcases h21 : parse_token_account e.shielded_vault_account with er | shielded_vault_acc
    · rw [h21] at hweq
      dsimp only at hweq
      injection hweq with hT hR
      rw [← hR] at h
      have he := Except.error.inj h
      subst he
      have hcontra := parse_token_account_error_inv _ _ h21
      simp at hcontra
    rw [h21] at hweq
    dsimp only at hweq
    by_cases h22 : shielded_vault_acc.mint ≠ e.input_shielded_pool.mint
    · rw [if_pos h22] at hweq
      injection hweq with hT hR
      rw [← hR] at h
      simp at h
    rw [if_neg h22] at hweq
    by_cases h23 : recipient_acc.mint ≠ e.pool.token_a_mint
    · rw [if_pos h23] at hweq
      injection hweq with hT hR
      rw [← hR] at h
      simp at h
    rw [if_neg h23] at hweq
    by_cases h24 : e.input_shielded_pool.root_history ≠ e.input_root_history_key
    · rw [if_pos h24] at hweq
      injection hweq with hT hR
      rw [← hR] at h
      simp at h
    rw [if_neg h24] at hweq
    by_cases h25 : e.input_root_history.pool ≠ e.input_shielded_pool_key
    · rw [if_pos h25] at hweq
      injection hweq with hT hR
      rw [← hR] at h
      simp at h
    rw [if_neg h25] at hweq
    by_cases h26 : reserve_in_acc.mint ≠ e.pool.token_b_mint
    · rw [if_pos h26] at hweq
      injection hweq with hT hR
      rw [← hR] at h
      simp at h
    rw [if_neg h26] at hweq
    by_cases h27 : reserve_out_acc.mint ≠ e.pool.token_a_mint
    · rw [if_pos h27] at hweq
      injection hweq with hT hR
      rw [← hR] at h
      simp at h
    rw [if_neg h27] at hweq
    by_cases h28 : ¬e.input_root_history.contains_root root_bytes = true
    · exact ⟨root_bytes, rfl, by simpa using h28⟩
    rw [if_neg h28] at hweq
    rcases h29 : ensure_nullifier_account e.nullifiers e.input_shielded_pool_key e.nullifier_hash with er | st'
    · rw [h29] at hweq
      dsimp only at hweq
      injection hweq with hT hR
      rw [← hR] at h
      have he := Except.error.inj h
      subst he
      have hcontra := ensure_error_inv _ _ _ _ h29
      simp at hcontra
    rw [h29] at hweq
    dsimp only at hweq
    by_cases h30 : ¬e.transfer_in_ok = true
    · rw [if_pos h30] at hweq
      injection hweq with hT hR
      rw [← hR] at h
      simp at h
    rw [if_neg h30] at hweq
    rcases h31 : get_amount_out e.amount_in e.pool.token_b_reserve e.pool.token_a_reserve with er | amount_out
    · rw [h31] at hweq
      dsimp only at hweq
      injection hweq with hT hR
      rw [← hR] at h
      have he := Except.error.inj h
      subst he
      have hcontra := get_amount_out_error_inv _ _ _ _ h31
      simp at hcontra
    rw [h31] at hweq
    dsimp only at hweq
    by_cases h32 : amount_out < e.min_out
    · rw [if_pos h32] at hweq
      injection hweq with hT hR
      rw [← hR] at h
      simp at h
    rw [if_neg h32] at hweq
    by_cases h33 : ¬e.transfer_out_ok = true
    · rw [if_pos h33] at hweq
      injection hweq with hT hR
      rw [← hR] at h
      simp at h
    rw [if_neg h33] at hweq
    by_cases h34 : U64 ≤ e.pool.token_b_reserve + e.amount_in
    · rw [if_pos h34] at hweq
      injection hweq with hT hR
      rw [← hR] at h
      simp at h
    rw [if_neg h34] at hweq
    by_cases h35 : e.pool.token_a_reserve < amount_out
    · rw [if_pos h35] at hweq
      injection hweq with hT hR
      rw [← hR] at h
      simp at h
    rw [if_neg h35] at hweq
    injection hweq with hT hR
    rw [← hR] at h
    simp at h
  rw [hab] at hweq
  dsimp only at hweq
  by_cases h36 : mint_field ≠ pubkey_to_field_bytes e.pool.token_a_mint
  · rw [if_pos h36] at hweq
    injection hweq with hT hR
    rw [← hR] at h
    simp at h
  rw [if_neg h36] at hweq
  rcases h37 : parse_token_account e.reserve_in_account with er | reserve_in_acc
  · rw [h37] at hweq
    dsimp only at hweq
    injection hweq with hT hR
    rw [← hR] at h
    have he := Except.error.inj h
    subst he
    have hcontra := parse_token_account_error_inv _ _ h37
    simp at hcontra
  rw [h37] at hweq
  dsimp only at hweq
  rcases h38 : parse_token_account e.reserve_out_account with er | reserve_out_acc
  · rw [h38] at hweq
    dsimp only at hweq
    injection hweq with hT hR
    rw [← hR] at h
    have he := Except.error.inj h
    subst he
    have hcontra := parse_token_account_error_inv _ _ h38
    simp at hcontra
  rw [h38] at hweq
  dsimp only at hweq
  rcases h39 : parse_token_account e.recipient_account with er | recipient_acc
  · rw [h39] at hweq
    dsimp only at hweq
    injection hweq with hT hR
    rw [← hR] at h
    have he := Except.error.inj h
    subst he
    have hcontra := parse_token_account_error_inv _ _ h39
    simp at hcontra
  rw [h39] at hweq
  dsimp only at hweq
  by_cases h40 : e.input_shielded_pool.mint ≠ e.pool.token_a_mint
  · rw [if_pos h40] at hweq
    injection hweq with hT hR
    rw [← hR] at h
    simp at h
  rw [if_neg h40] at hweq
  by_cases h41 : e.shielded_vault_key ≠ e.input_shielded_pool.vault
  · rw [if_pos h41] at hweq
    injection hweq with hT hR
    rw [← hR] at h
    simp at h
  rw [if_neg h41] at hweq
  rcases h42 : parse_token_account e.shielded_vault_account with er | shielded_vault_acc
  · rw [h42] at hweq
    dsimp only at hweq
    injection hweq with hT hR
    rw [← hR] at h
    have he := Except.error.inj h
    subst he
    have hcontra := parse_token_account_error_inv _ _ h42
    simp at hcontra
  rw [h42] at hweq
  dsimp only at hweq
  by_cases h43 : shielded_vault_acc.mint ≠ e.input_shielded_pool.mint
  · rw [if_pos h43] at hweq
    injection hweq with hT hR
    rw [← hR] at h
    simp at h
  rw [if_neg h43] at hweq
  by_cases h44 : recipient_acc.mint ≠ e.pool.token_b_mint
  · rw [if_pos h44] at hweq
    injection hweq with hT hR
    rw [← hR] at h
    simp at h
  rw [if_neg h44] at hweq
  by_cases h45 : e.input_shielded_pool.root_history ≠ e.input_root_history_key
  · rw [if_pos h45] at hweq
    injection hweq with hT hR
    rw [← hR] at h
    simp at h
  rw [if_neg h45] at hweq
  by_cases h46 : e.input_root_history.pool ≠ e.input_shielded_pool_key
  · rw [if_pos h46] at hweq
    injection hweq with hT hR
    rw [← hR] at h
    simp at h
  rw [if_neg h46] at hweq
  by_cases h47 : reserve_in_acc.mint ≠ e.pool.token_a_mint
  · rw [if_pos h47] at hweq
    injection hweq with hT hR
    rw [← hR] at h
    simp at h
  rw [if_neg h47] at hweq
  by_cases h48 : reserve_out_acc.mint ≠ e.pool.token_b_mint
  · rw [if_pos h48] at hweq
    injection hweq with hT hR
    rw [← hR] at h
    simp at h
  rw [if_neg h48] at hweq
  by_cases h49 : ¬e.input_root_history.contains_root root_bytes = true
  · exact ⟨root_bytes, rfl, by simpa using h49⟩
  rw [if_neg h49] at hweq
  rcases h50 : ensure_nullifier_account e.nullifiers e.input_shielded_pool_key e.nullifier_hash with er | st'
  · rw [h50] at hweq
    dsimp only at hweq
    injection hweq with hT hR
    rw [← hR] at h
    have he := Except.error.inj h
    subst he
    have hcontra := ensure_error_inv _ _ _ _ h50
    simp at hcontra
  rw [h50] at hweq
  dsimp only at hweq
  by_cases h51 : ¬e.transfer_in_ok = true
  · rw [if_pos h51] at hweq
    injection hweq with hT hR
    rw [← hR] at h
    simp at h
  rw [if_neg h51] at hweq
  rcases h52 : get_amount_out e.amount_in e.pool.token_a_reserve e.pool.token_b_reserve with er | amount_out
  · rw [h52] at hweq
    dsimp only at hweq
    injection hweq with hT hR
    rw [← hR] at h
    have he := Except.error.inj h
    subst he
    have hcontra := get_amount_out_error_inv _ _ _ _ h52
    simp at hcontra
  rw [h52] at hweq
  dsimp only at hweq
  by_cases h53 : amount_out < e.min_out
  · rw [if_pos h53] at hweq
    injection hweq with hT hR
    rw [← hR] at h
    simp at h
  rw [if_neg h53] at hweq
  by_cases h54 : ¬e.transfer_out_ok = true
  · rw [if_pos h54] at hweq
    injection hweq with hT hR
    rw [← hR] at h
    simp at h
  rw [if_neg h54] at hweq
  by_cases h55 : U64 ≤ e.pool.token_a_reserve + e.amount_in
  · rw [if_pos h55] at hweq
    injection hweq with hT hR
    rw [← hR] at h
    simp at h
  rw [if_neg h55] at hweq
  by_cases h56 : e.pool.token_b_reserve < amount_out
  · rw [if_pos h56] at hweq
    injection hweq with hT hR
    rw [← hR] at h
    simp at h
  rw [if_neg h56] at hweq
  injection hweq with hT hR
  rw [← hR] at h
  simp at h

/-- Claim C4: immediately after `initialize_shielded_root_history` every
32-byte slot is zero and `contains_root` accepts the never-appended all-zero
root; the zero root stays accepted as long as fewer than 32 appends have
happened, and only stops being accepted once 32 (non-zero) appends have
overwritten every slot; consequently neither `withdraw_shielded` nor
`swap_private` can fail the root-freshness check (`InvalidStateRoot`) when
the history is freshly initialized and the proof claims the all-zero root. -/
theorem c4_zero_root_accepted :
    (∀ pk : Word,
      (init_shielded_root_history pk).roots = List.replicate 32 zeroWord ∧
      (init_shielded_root_history pk).contains_root zeroWord = true) ∧
    (∀ (pk : Word) (rs : List Word), rs.length < 32 →
      ((init_shielded_root_history pk).append_list rs).contains_root zeroWord
        = true) ∧
    (∀ (pk : Word) (rs : List Word), rs.length = 32 →
      (∀ x ∈ rs, x ≠ zeroWord) →
      ((init_shielded_root_history pk).append_list rs).contains_root zeroWord
        = false) ∧
    (∀ (e : WithdrawEnv) (pk : Word),
      e.root_history = init_shielded_root_history pk →
      parse_field e.public_inputs 0 = .ok zeroWord →
      (withdraw_shielded e).2 ≠ .error .invalidStateRoot) ∧
    (∀ (e : SwapEnv) (pk : Word),
      e.input_root_history = init_shielded_root_history pk →
      parse_field e.public_inputs 0 = .ok zeroWord →
      (swap_private e).2 ≠ .error .invalidStateRoot) := by
  refine ⟨fun pk => ⟨rfl, init_contains_zero pk⟩, ?_, ?_, ?_, ?_⟩
  · intro pk rs hlen
    obtain ⟨hr, _⟩ := append_list_fresh pk rs (le_of_lt hlen)
    unfold ShieldedRootHistory.contains_root
    rw [hr, decide_eq_true_eq]
    exact List.mem_append_right _ (List.mem_replicate.mpr ⟨by omega, rfl⟩)
  · intro pk rs hlen hnz
    obtain ⟨hr, _⟩ := append_list_fresh pk rs (le_of_eq hlen)
    unfold ShieldedRootHistory.contains_root
    rw [hr, hlen, decide_eq_false_iff_not]
    simp only [Nat.sub_self, List.replicate_zero, List.append_nil]
    intro hm
    exact hnz _ hm rfl
  · intro e pk hfresh hp0 hc
    obtain ⟨rb, hp, hcf⟩ := withdraw_isr_inv e hc
    have hrb : rb = zeroWord := Except.ok.inj (hp.symm.trans hp0)
    rw [hrb, hfresh, init_contains_zero] at hcf
    cases hcf
  · intro e pk hfresh hp0 hc
    obtain ⟨rb, hp, hcf⟩ := swap_isr_inv e hc
    have hrb : rb = zeroWord := Except.ok.inj (hp.symm.trans hp0)
    rw [hrb, hfresh, init_contains_zero] at hcf
    cases hcf

set_option maxRecDepth 8000 in
/-- Witness for `c4_zero_root_accepted`: its parts applied to the concrete
pool key `[7]`, the single append `[[1]]`, 32 distinct non-zero appends, and
the two concrete zero-root calls. -/
theorem c4_zero_root_accepted_witness :
    (init_shielded_root_history [7]).contains_root zeroWord = true ∧
    ((init_shielded_root_history [7]).append_list [[1]]).contains_root zeroWord
      = true ∧
    ((init_shielded_root_history [7]).append_list
        (List.map (fun i => [i]) (List.range 32))).contains_root zeroWord
      = false ∧
    (withdraw_shielded example_withdraw_env).2 ≠ .error .invalidStateRoot ∧
    (swap_private example_swap_env).2 ≠ .error .invalidStateRoot := by
  refine ⟨(c4_zero_root_accepted.1 [7]).2,
    c4_zero_root_accepted.2.1 [7] [[1]] (by norm_num),
    c4_zero_root_accepted.2.2.1 [7] (List.map (fun i => [i]) (List.range 32))
      (by simp) (by decide),
    c4_zero_root_accepted.2.2.2.1 example_withdraw_env zeroWord rfl rfl,
    c4_zero_root_accepted.2.2.2.2 example_swap_env zeroWord rfl rfl⟩

/-- Claim C5: in both shielded withdraw and shielded swap, when the external
verifier accepts the proof and every check preceding the amount binding
passes, but the public-input amount field does not decode to the call's
plaintext amount argument (either its high 24 bytes are not all zero, or the
decoded value differs), the call fails with `InvalidProof`. -/
theorem c5_amount_binding :
    (∀ (e : WithdrawEnv) (root_bytes nullifier_hash_bytes amount_field
        recipient_field mint_field pool_field : Word)
        (vault_acc recipient_acc : TokenAccount),
      PUBLIC_INPUTS_LEN * 32 ≤ e.public_inputs.length →
      2 ≤ e.remaining_accounts →
      verify_zk_proof e.verifier_program e.verifier_cpi e.proof
        e.public_inputs = .ok () →
      parse_field e.public_inputs 0 = .ok root_bytes →
      parse_field e.public_inputs 1 = .ok nullifier_hash_bytes →
      parse_field e.public_inputs 2 = .ok amount_field →
      parse_field e.public_inputs 3 = .ok recipient_field →
      parse_field e.public_inputs 4 = .ok mint_field →
      parse_field e.public_inputs 5 = .ok pool_field →
      e.vault_key = e.shielded_pool.vault →
      parse_token_account e.vault_account = .ok vault_acc →
      parse_token_account e.recipient_account = .ok recipient_acc →
      vault_acc.mint = e.shielded_pool.mint →
      recipient_acc.mint = e.shielded_pool.mint →
      e.shielded_pool.root_history = e.root_history_key →
      e.root_history.pool = e.shielded_pool_key →
      e.root_history.contains_root root_bytes = true →
      nullifier_hash_bytes = e.nullifier_hash →
      (∀ v, field_to_u64 amount_field = .ok v → v ≠ e.amount) →
      (withdraw_shielded e).2 = .error .invalidProof) ∧
    (∀ (e : SwapEnv) (root_bytes nullifier_hash_bytes amount_field
        recipient_field mint_field pool_field : Word),
      PUBLIC_INPUTS_LEN * 32 ≤ e.public_inputs.length →
      4 ≤ e.remaining_accounts →
      verify_zk_proof e.verifier_program e.verifier_cpi e.proof
        e.public_inputs = .ok () →
      parse_field e.public_inputs 0 = .ok root_bytes →
      parse_field e.public_inputs 1 = .ok nullifier_hash_bytes →
      parse_field e.public_inputs 2 = .ok amount_field →
      parse_field e.public_inputs 3 = .ok recipient_field →
      parse_field e.public_inputs 4 = .ok mint_field →
      parse_field e.public_inputs 5 = .ok pool_field →
      pool_field = pubkey_to_field_bytes e.input_shielded_pool_key →
      (∀ v, field_to_u64 amount_field = .ok v → v ≠ e.amount_in) →
      (swap_private e).2 = .error .invalidProof) := by
  constructor
  · intro e root_bytes nullifier_hash_bytes amount_field recipient_field
      mint_field pool_field vault_acc recipient_acc hlen hrem hver
      hp0 hp1 hp2 hp3 hp4 hp5 hvault hva hra hvm hrm hrh hhp hroot hnh hamount
    unfold withdraw_shielded
    dsimp only
    rw [if_neg (show ¬ e.public_inputs.length < PUBLIC_INPUTS_LEN * 32 by omega),
      if_neg (show ¬ e.remaining_accounts < 2 by omega), hver]
    dsimp only
    rw [hp0]
    dsimp only
    rw [hp1]
    dsimp only
    rw [hp2]
    dsimp only
    rw [hp3]
    dsimp only
    rw [hp4]
    dsimp only
    rw [hp5]
    dsimp only
    rw [if_neg (not_ne_iff.mpr hvault), hva]
    dsimp only
    rw [hra]
    dsimp only
    rw [if_neg (not_ne_iff.mpr hvm), if_neg (not_ne_iff.mpr hrm),
      if_neg (not_ne_iff.mpr hrh), if_neg (not_ne_iff.mpr hhp),
      if_neg (not_not_intro hroot), if_neg (not_ne_iff.mpr hnh)]
    rcases hfu : field_to_u64 amount_field with er | v
    · dsimp only
      rw [field_to_u64_error_inv _ _ hfu]
    · dsimp only
      rw [if_pos (hamount v hfu)]
  · intro e root_bytes nullifier_hash_bytes amount_field recipient_field
      mint_field pool_field hlen hrem hver hp0 hp1 hp2 hp3 hp4 hp5 hpool hamount
    unfold swap_private
    dsimp only
    rw [if_neg (show ¬ e.public_inputs.length < PUBLIC_INPUTS_LEN * 32 by omega),
      if_neg (show ¬ e.remaining_accounts < 4 by omega), hver]
    dsimp only
    rw [hp0]
    dsimp only
    rw [hp1]
    dsimp only
    rw [hp2]
    dsimp only
    rw [hp3]
    dsimp only
    rw [hp4]
    dsimp only
    rw [hp5]
    dsimp only
    rw [if_neg (not_ne_iff.mpr hpool)]
    rcases hfu : field_to_u64 amount_field with er | v
    · dsimp only
      rw [field_to_u64_error_inv _ _ hfu]
    · dsimp only
      rw [if_pos (hamount v hfu)]

set_option maxRecDepth 8000 in
/-- Witness for `c5_amount_binding`: the two concrete fully valid calls run
with a plaintext amount argument of 5 while the proof's amount field encodes
0 (withdraw) resp. 1 (swap): both fail with `InvalidProof`. -/
theorem c5_amount_binding_witness :
    (withdraw_shielded { example_withdraw_env with amount := 5 }).2
        = .error .invalidProof ∧
    (swap_private { example_swap_env with amount_in := 5 }).2
        = .error .invalidProof := by
  constructor
  · exact c5_amount_binding.1 { example_withdraw_env with amount := 5 }
      zeroWord zeroWord zeroWord zeroWord zeroWord zeroWord
      ⟨zeroWord⟩ ⟨zeroWord⟩
      (by decide) (by decide) rfl rfl rfl rfl rfl rfl rfl rfl rfl rfl
      rfl rfl rfl rfl rfl rfl
      (fun v hv => by
        have h0 : (0 : Nat) = v := Except.ok.inj hv
        subst h0
        decide)
  · have hp2s : parse_field
        ({ example_swap_env with amount_in := 5 } : SwapEnv).public_inputs 2
          = .ok (List.replicate 31 0 ++ [1]) := rfl
    have hfu1 : field_to_u64 (List.replicate 31 0 ++ [1]) = .ok 1 := rfl
    exact c5_amount_binding.2 { example_swap_env with amount_in := 5 }
      zeroWord zeroWord (List.replicate 31 0 ++ [1]) zeroWord zeroWord zeroWord
      (by decide) (by decide) rfl rfl rfl hp2s rfl rfl rfl rfl
      (fun v hv => by
        have h1 : (1 : Nat) = v := Except.ok.inj (hfu1.symm.trans hv)
        subst h1
        decide)

end ZkGate
